import Mathlib

/-!
Verification development for the event-driven backtesting core of the
quant-store repository.

The Python sources are shallowly embedded:
prices and cash are modelled as rationals (the claims under study are about
control flow and sign/ordering facts, not float rounding), timestamps as
naturals, order ids as naturals, and Python dicts as association lists.
Each Lean definition is translated from the named Python function.

Main embedded components:
* core event records (core/events.py of trader-v2);
* SimulatedExecutionHandler (trader-v2/components/execution_handler.py);
* BasePortfolio / MomentumPortfolio (trader-v2/components/portfolio.py);
* BaseBroker / MomentumBroker (trader_v2/components/portfolio.py);
* EventEngine dispatch (trader/event_engine.py);
* the asyncio scheduling semantics of EventBus.run,
  EventBus.wait_until_queue_empty and MockDataFeed.start_feed
  (trader-v2/core/event_bus.py, trader-v2/components/data_feed.py);
* the fate of a handler exception under the fire-and-forget task dispatch
  of EventBus._dispatch_event (trader-v2/core/event_bus.py).
-/

/-- Default commission rate DEFAULT_COMMISSION_RATE = 0.0005 from
trader-v2/components/portfolio.py. -/
def DEFAULT_COMMISSION_RATE : ℚ := 5 / 10000

/-- Default slippage DEFAULT_SLIPPAGE_PERCENT = 0.001 from
trader-v2/components/portfolio.py. -/
def DEFAULT_SLIPPAGE_PERCENT : ℚ := 1 / 1000

/-- OrderEvent from core/events.py: id, symbol, direction ("BUY"/"SELL"),
quantity (Python int), order_type ("MARKET"/...), optional limit price.
Directions are kept as strings because the Python code compares strings
and has genuine fall-through branches for unexpected values. -/
structure OrderEvent where
  id : ℕ
  symbol : String
  direction : String
  quantity : ℤ
  order_type : String
  price : Option ℚ := none
deriving DecidableEq, Repr

/-- MarketEvent from core/events.py: symbol, timestamp and a data dict,
of which the code reads the optional keys open, close and price. -/
structure MarketEvent where
  symbol : String
  timestamp : ℕ
  openPx : Option ℚ := none
  closePx : Option ℚ := none
  pricePx : Option ℚ := none
deriving DecidableEq, Repr

/-- FillEvent from core/events.py. -/
structure FillEvent where
  order_id : ℕ
  symbol : String
  direction : String
  quantity : ℤ
  price : ℚ
  commission : ℚ
  timestamp : ℕ
deriving DecidableEq, Repr

/-- The signal record as consumed by the broker/portfolio code
(symbol, direction in LONG/SHORT/FLAT, and the weight attribute that
MomentumPortfolio.on_signal and MomentumBroker.on_signal read).
Note: the SignalEvent dataclass of trader-v2/core/events.py does NOT
declare the weight field (it is commented out there); this record models
the duck-typed interface its consumers and producers actually use.
The dataclass field list itself is modelled separately for claim C9. -/
structure SignalEvent where
  symbol : String
  direction : String
  weight : Option ℚ := none
deriving DecidableEq, Repr

/-- Set a key in an association list (Python dict item assignment). -/
def assocSet {α : Type} (m : List (String × α)) (k : String) (v : α) :
    List (String × α) :=
  if m.any (fun p => p.1 = k) then
    m.map (fun p => if p.1 = k then (k, v) else p)
  else m ++ [(k, v)]

/-- Look a key up in an association list (Python dict .get). -/
def assocGet {α : Type} (m : List (String × α)) (k : String) : Option α :=
  (m.find? (fun p => p.1 = k)).map (fun p => p.2)

namespace SimulatedExecutionHandler

/-- Mutable state of SimulatedExecutionHandler: the pending-order dict
(kept as an insertion-ordered list with unique ids, matching Python dict
iteration order), the last seen market timestamp, and the last-price dict. -/
structure ExecState where
  pending_orders : List OrderEvent
  last_market_timestamp : Option ℕ
  last_market_prices : List (String × ℚ)
deriving DecidableEq, Repr

/-- Initial state of a freshly constructed handler. -/
def exec_init : ExecState := { pending_orders := [], last_market_timestamp := none, last_market_prices := [] }

/-- Embeds _update_last_price_for_symbol: prefer close, then price, then
open; store only valid positive prices. -/
def update_last_price_for_symbol (prices : List (String × ℚ)) (ev : MarketEvent) :
    List (String × ℚ) :=
  let px : Option ℚ :=
    match ev.closePx with
    | some c => some c
    | none => match ev.pricePx with
      | some p => some p
      | none => ev.openPx
  match px with
  | some p => if 0 < p then assocSet prices ev.symbol p else prices
  | none => prices

/-- Base simulated fill price: the open of the new bar, falling back to
close (lines 97-101 of execution_handler.py). -/
def base_simulated_price (ev : MarketEvent) : Option ℚ :=
  match ev.openPx with
  | some p => some p
  | none => ev.closePx

/-- Settlement of one pending order against the current market event
(the body of the per-order loop in _on_market_event_for_settlement):
invalid or non-positive base price leaves the order pending; otherwise
slippage is applied (BUY up, SELL down), the final price is required to be
positive, and commission = final_price * quantity * commission_percent. -/
def settle_order (commission_percent slippage_percent : ℚ) (ev : MarketEvent)
    (o : OrderEvent) : Option FillEvent :=
  match base_simulated_price ev with
  | none => none
  | some base =>
    if base ≤ 0 then none
    else
      let slippage_amount := base * slippage_percent
      let final_fill_price :=
        if o.direction = "BUY" then base + slippage_amount
        else if o.direction = "SELL" then base - slippage_amount
        else base
      if final_fill_price ≤ 0 then none
      else
        some { order_id := o.id
               symbol := o.symbol
               direction := o.direction
               quantity := o.quantity
               price := final_fill_price
               commission := final_fill_price * (o.quantity : ℚ) * commission_percent
               timestamp := ev.timestamp }

/-- The settlement loop over the pending-order dict snapshot: each order
either produces a fill and is removed, or remains pending. -/
def settle_loop (commission_percent slippage_percent : ℚ) (ev : MarketEvent) :
    List OrderEvent → List OrderEvent × List FillEvent
  | [] => ([], [])
  | o :: rest =>
    match settle_order commission_percent slippage_percent ev o with
    | some f =>
      let r := settle_loop commission_percent slippage_percent ev rest
      (r.1, f :: r.2)
    | none =>
      let r := settle_loop commission_percent slippage_percent ev rest
      (o :: r.1, r.2)

/-- New-time-step test of _on_market_event_for_settlement:
last timestamp unset, or the current timestamp strictly greater. -/
def is_new_time_step (s : ExecState) (ev : MarketEvent) : Bool :=
  match s.last_market_timestamp with
  | none => true
  | some t => t < ev.timestamp

/-- Embeds _on_market_event_for_settlement: always update the last-price
dict; if the timestamp is not strictly newer, do nothing else; otherwise
run the settlement loop over every pending order (there is no per-symbol
filter in the source) and finally record the current timestamp. -/
def on_market_event_for_settlement (commission_percent slippage_percent : ℚ)
    (s : ExecState) (ev : MarketEvent) : ExecState × List FillEvent :=
  let prices := update_last_price_for_symbol s.last_market_prices ev
  if is_new_time_step s ev then
    let r := settle_loop commission_percent slippage_percent ev s.pending_orders
    ({ pending_orders := r.1
       last_market_timestamp := some ev.timestamp
       last_market_prices := prices }, r.2)
  else
    ({ s with last_market_prices := prices }, [])

/-- Embeds _on_order_event: dict assignment of the order under its id. -/
def insert_order (pending : List OrderEvent) (o : OrderEvent) : List OrderEvent :=
  if pending.any (fun p => p.id = o.id) then
    pending.map (fun p => if p.id = o.id then o else p)
  else pending ++ [o]

/-- An input consumed by the execution handler: an OrderEvent delivered by
the bus, or a MarketEvent delivered by the bus. -/
inductive ExecInput
  | order (o : OrderEvent)
  | market (ev : MarketEvent)
deriving DecidableEq, Repr

/-- One bus delivery to the handler. -/
def exec_step (commission_percent slippage_percent : ℚ) (s : ExecState) :
    ExecInput → ExecState × List FillEvent
  | ExecInput.order o =>
    ({ s with pending_orders := insert_order s.pending_orders o }, [])
  | ExecInput.market ev =>
    on_market_event_for_settlement commission_percent slippage_percent s ev

/-- A whole delivery sequence, collecting every published FillEvent in
publication order. -/
def exec_run (commission_percent slippage_percent : ℚ) (s : ExecState) :
    List ExecInput → ExecState × List FillEvent
  | [] => (s, [])
  | i :: rest =>
    let r1 := exec_step commission_percent slippage_percent s i
    let r2 := exec_run commission_percent slippage_percent r1.1 rest
    (r2.1, r1.2 ++ r2.2)

/-- Ids of the order inputs of a delivery sequence, in order. -/
def order_ids_of : List ExecInput → List ℕ
  | [] => []
  | ExecInput.order o :: rest => o.id :: order_ids_of rest
  | ExecInput.market _ :: rest => order_ids_of rest

end SimulatedExecutionHandler

/-- Per-symbol position record of the portfolio defaultdict:
quantity and volume-weighted cost basis. -/
structure Position where
  quantity : ℤ
  cost_basis : ℚ
deriving DecidableEq, Repr

namespace BasePortfolio

/-- Mutable state of BasePortfolio (trader-v2/components/portfolio.py):
confirmed cash, confirmed positions, the pending-order dict, the reserved
cash pre-deduction, the pending position-change dict, and the last-price
dict maintained by _on_market_event_for_price. -/
structure PortfolioState where
  cash : ℚ
  positions : List (String × Position)
  pending_orders : List OrderEvent
  reserved_cash : ℚ
  pending_position_changes : List (String × ℤ)
  last_market_prices : List (String × ℚ)
deriving DecidableEq, Repr

/-- Embeds BasePortfolio.__init__ (lines 26-40): every field is set from
the argument or emptied; the constructor performs no validation of
initial_cash whatsoever. -/
def base_portfolio_init (initial_cash : ℚ) : PortfolioState :=
  { cash := initial_cash
    positions := []
    pending_orders := []
    reserved_cash := 0
    pending_position_changes := []
    last_market_prices := [] }

/-- Defaultdict read of a position (default quantity 0, cost basis 0). -/
def get_position (st : PortfolioState) (symbol : String) : Position :=
  (assocGet st.positions symbol).getD { quantity := 0, cost_basis := 0 }

/-- Embeds get_latest_price: the stored price, provided it is positive. -/
def get_latest_price (st : PortfolioState) (symbol : String) : Option ℚ :=
  match assocGet st.last_market_prices symbol with
  | some p => if 0 < p then some p else none
  | none => none

/-- Embeds _calculate_commission. -/
def calculate_commission (quantity : ℤ) (price : ℚ) : ℚ :=
  |(quantity : ℚ) * price| * DEFAULT_COMMISSION_RATE

/-- Embeds _estimate_order_cost: estimated cash impact of placing an
order, using the limit price when available, otherwise the last market
price adjusted by the default slippage; 0 when no estimate is possible. -/
def estimate_order_cost (st : PortfolioState) (o : OrderEvent) : ℚ :=
  if o.quantity ≤ 0 then 0
  else
    let estimated_price? : Option ℚ :=
      if o.order_type = "MARKET" ∨ o.price = none then
        match get_latest_price st o.symbol with
        | none => none
        | some last_price =>
          if o.direction = "BUY" then some (last_price * (1 + DEFAULT_SLIPPAGE_PERCENT))
          else if o.direction = "SELL" then some (last_price * (1 - DEFAULT_SLIPPAGE_PERCENT))
          else some last_price
      else o.price
    match estimated_price? with
    | none => 0
    | some estimated_price =>
      if estimated_price ≤ 0 then 0
      else
        let estimated_value := (o.quantity : ℚ) * estimated_price
        let commission := calculate_commission o.quantity estimated_price
        if o.direction = "BUY" then estimated_value + commission
        else if o.direction = "SELL" then estimated_value - commission
        else 0

/-- Embeds get_current_position_quantity. -/
def get_current_position_quantity (st : PortfolioState) (symbol : String) : ℤ :=
  (get_position st symbol).quantity

/-- Embeds get_projected_position_quantity: confirmed plus pending. -/
def get_projected_position_quantity (st : PortfolioState) (symbol : String) : ℤ :=
  get_current_position_quantity st symbol +
    ((assocGet st.pending_position_changes symbol).getD 0)

/-- Embeds get_total_portfolio_value: confirmed cash plus, for every
position with non-zero quantity, quantity times the latest positive
market price, falling back to the cost basis. -/
def get_total_portfolio_value (st : PortfolioState) : ℚ :=
  st.cash + st.positions.foldl (fun acc sp =>
    if sp.2.quantity ≠ 0 then
      match assocGet st.last_market_prices sp.1 with
      | some p => if 0 < p then acc + (sp.2.quantity : ℚ) * p
                  else acc + (sp.2.quantity : ℚ) * sp.2.cost_basis
      | none => acc + (sp.2.quantity : ℚ) * sp.2.cost_basis
    else acc) 0

/-- Embeds _check_risk_before_order: a BUY is blocked when its cost
cannot be estimated (estimate not positive) or the estimate exceeds
cash minus reserved cash; a SELL is blocked (shorting disallowed) when
its quantity exceeds the projected position (confirmed plus pending). -/
def check_risk_before_order (st : PortfolioState) (o : OrderEvent) : Bool :=
  if o.direction = "BUY" then
    let estimated_cost := estimate_order_cost st o
    if estimated_cost ≤ 0 then false
    else
      let projected_available_cash := st.cash - st.reserved_cash
      if projected_available_cash < estimated_cost then false
      else true
  else if o.direction = "SELL" then
    let projected_qty := get_projected_position_quantity st o.symbol
    if projected_qty < o.quantity then false else true
  else true

/-- Defaultdict(int) increment of a pending-position-change entry. -/
def add_pending_change (m : List (String × ℤ)) (k : String) (d : ℤ) :
    List (String × ℤ) :=
  assocSet m k ((assocGet m k).getD 0 + d)

/-- Embeds _update_state_from_fill, part 1 (lines 183-213): when the fill
matches a pending order, reverse the reservation made at placement
(clamped at zero for BUYs), reverse the pending position change by the
original order quantity, and delete the pending order. -/
def revert_pending (st : PortfolioState) (f : FillEvent) : PortfolioState :=
  match st.pending_orders.find? (fun o => o.id = f.order_id) with
  | none => st
  | some original =>
    let estimated_cost_at_placement := estimate_order_cost st original
    let st1 :=
      if original.direction = "BUY" then
        { st with
          reserved_cash := max 0 (st.reserved_cash - estimated_cost_at_placement)
          pending_position_changes :=
            add_pending_change st.pending_position_changes original.symbol (-original.quantity) }
      else if original.direction = "SELL" then
        { st with
          pending_position_changes :=
            add_pending_change st.pending_position_changes original.symbol original.quantity }
      else st
    { st1 with
      pending_orders := st1.pending_orders.filter (fun o => ¬ (o.id = f.order_id)) }

/-- Embeds _update_state_from_fill, parts 2 and 3 (lines 216-255): apply
the actual fill to confirmed cash unconditionally, then update the
position quantity and cost basis: a BUY onto a positive position takes
the volume-weighted average, any other BUY sets the cost basis to the
fill price; a SELL keeps the cost basis unless the new quantity is not
positive, in which case the cost basis resets to 0. -/
def update_state_from_fill (st : PortfolioState) (f : FillEvent) : PortfolioState :=
  let st1 := revert_pending st f
  let trade_value := (f.quantity : ℚ) * f.price
  let st2 :=
    if f.direction = "BUY" then { st1 with cash := st1.cash - (trade_value + f.commission) }
    else if f.direction = "SELL" then { st1 with cash := st1.cash + (trade_value - f.commission) }
    else st1
  let pos := get_position st2 f.symbol
  if f.direction = "BUY" then
    let new_total_qty := pos.quantity + f.quantity
    let new_cost_basis :=
      if 0 < pos.quantity then
        if 0 < new_total_qty then
          ((pos.quantity : ℚ) * pos.cost_basis + (f.quantity : ℚ) * f.price) / (new_total_qty : ℚ)
        else 0
      else f.price
    { st2 with positions :=
        (assocSet st2.positions f.symbol ⟨new_total_qty, new_cost_basis⟩) }
  else if f.direction = "SELL" then
    let new_total_qty := pos.quantity - f.quantity
    let new_cost_basis := if new_total_qty ≤ 0 then 0 else pos.cost_basis
    { st2 with positions :=
        (assocSet st2.positions f.symbol ⟨new_total_qty, new_cost_basis⟩) }
  else st2

end BasePortfolio

namespace MomentumPortfolio

open BasePortfolio

/-- The pending-state update and publication step shared by on_signal and
_generate_flat_order (lines 414-430 and 470-484 of portfolio.py): insert
the order into the pending dict, reserve the estimated cost for a BUY,
record the pending position change, and publish the OrderEvent. -/
def place_order (st : PortfolioState) (o : OrderEvent) :
    PortfolioState × Option OrderEvent :=
  let st1 := { st with pending_orders := SimulatedExecutionHandler.insert_order st.pending_orders o }
  let estimated_impact := estimate_order_cost st1 o
  if o.direction = "BUY" then
    ({ st1 with
       reserved_cash := st1.reserved_cash + estimated_impact
       pending_position_changes :=
         add_pending_change st1.pending_position_changes o.symbol o.quantity }, some o)
  else if o.direction = "SELL" then
    ({ st1 with
       pending_position_changes :=
         add_pending_change st1.pending_position_changes o.symbol (-o.quantity) }, some o)
  else (st1, some o)

/-- Embeds _generate_flat_order: close the confirmed position, if any,
with an opposite-direction order for its full size, subject to the risk
check. -/
def generate_flat_order (new_id : ℕ) (st : PortfolioState) (symbol : String) :
    PortfolioState × Option OrderEvent :=
  let current_quantity := get_current_position_quantity st symbol
  if current_quantity = 0 then (st, none)
  else
    let order_direction := if 0 < current_quantity then "SELL" else "BUY"
    let potential_order : OrderEvent :=
      { id := new_id, symbol := symbol, direction := order_direction
        quantity := |current_quantity|, order_type := "MARKET" }
    if check_risk_before_order st potential_order then place_order st potential_order
    else (st, none)

/-- Embeds MomentumPortfolio.on_signal (lines 325-434): FLAT is handled
by _generate_flat_order; LONG/SHORT requires a non-negative weight, a
positive latest price and positive total value; the target quantity is
target_value / latest_price with NO negation for SHORT; the difference is
taken against the projected (confirmed plus pending) quantity, compared
against the 0.95-lot action threshold, floored to a lot multiple, risk
checked, and placed. The fresh uuid of the published order is modelled by
the new_id argument. -/
def on_signal (lot_size : ℤ) (new_id : ℕ) (st : PortfolioState)
    (sig : SignalEvent) : PortfolioState × Option OrderEvent :=
  if sig.direction = "FLAT" then generate_flat_order new_id st sig.symbol
  else if ¬ (sig.direction = "LONG" ∨ sig.direction = "SHORT") then (st, none)
  else
    match sig.weight with
    | none => (st, none)
    | some weight =>
      if weight < 0 then (st, none)
      else
        match get_latest_price st sig.symbol with
        | none => (st, none)
        | some latest_price =>
          let total_portfolio_value := get_total_portfolio_value st
          if total_portfolio_value ≤ 0 then (st, none)
          else
            let target_value := max 0 (total_portfolio_value * weight)
            let target_quantity_float := target_value / latest_price
            let projected_quantity := get_projected_position_quantity st sig.symbol
            let quantity_difference_float := target_quantity_float - (projected_quantity : ℚ)
            let action_threshold := (lot_size : ℚ) * (95 / 100)
            let decision : Option (String × ℤ) :=
              if action_threshold < quantity_difference_float then
                some ("BUY", ⌊quantity_difference_float / (lot_size : ℚ)⌋ * lot_size)
              else if quantity_difference_float < -action_threshold then
                some ("SELL", ⌊|quantity_difference_float| / (lot_size : ℚ)⌋ * lot_size)
              else none
            match decision with
            | none => (st, none)
            | some dq =>
              if dq.2 ≤ 0 then (st, none)
              else
                let potential_order : OrderEvent :=
                  { id := new_id, symbol := sig.symbol, direction := dq.1
                    quantity := dq.2, order_type := "MARKET" }
                if check_risk_before_order st potential_order then
                  place_order st potential_order
                else (st, none)

end MomentumPortfolio

namespace BaseBroker

/-- Mutable state of BaseBroker / MomentumBroker
(trader_v2/components/portfolio.py): cash, confirmed positions, the
broker-internal pending-order dict, the NAV history, and the price view
obtained from the data feed (modelled as the latest-price map the feed
would return). -/
structure BrokerState where
  cash : ℚ
  positions : List (String × Position)
  pending_orders : List OrderEvent
  nav_history : List (ℕ × ℚ)
  last_nav_timestamp : Option ℕ
  last_market_timestamp : Option ℕ
  feed_prices : List (String × ℚ)
deriving DecidableEq, Repr

/-- Embeds BaseBroker.get_latest_price: data_feed.get_latest_price with
errors mapped to None. -/
def get_latest_price (st : BrokerState) (symbol : String) : Option ℚ :=
  assocGet st.feed_prices symbol

/-- Embeds BaseBroker._calculate_commission. -/
def calculate_commission (quantity : ℤ) (price : ℚ) : ℚ :=
  |(quantity : ℚ) * price| * DEFAULT_COMMISSION_RATE

/-- Embeds BaseBroker.get_current_position_quantity. -/
def get_current_position_quantity (st : BrokerState) (symbol : String) : ℤ :=
  ((assocGet st.positions symbol).getD { quantity := 0, cost_basis := 0 }).quantity

/-- Embeds BaseBroker.get_total_portfolio_value: cash plus market value
of non-zero positions at the feed price, falling back to cost basis. -/
def get_total_portfolio_value (st : BrokerState) : ℚ :=
  st.cash + st.positions.foldl (fun acc sp =>
    if sp.2.quantity ≠ 0 then
      match get_latest_price st sp.1 with
      | some p => if 0 < p then acc + (sp.2.quantity : ℚ) * p
                  else acc + (sp.2.quantity : ℚ) * sp.2.cost_basis
      | none => acc + (sp.2.quantity : ℚ) * sp.2.cost_basis
    else acc) 0

/-- Embeds BaseBroker._estimate_order_cost: note that unlike the
BasePortfolio variant, only a BUY gets the slippage markup here. -/
def estimate_order_cost (st : BrokerState) (o : OrderEvent) : ℚ :=
  if o.quantity ≤ 0 then 0
  else
    let estimated_price? : Option ℚ :=
      if o.order_type = "MARKET" ∨ o.price = none then
        match get_latest_price st o.symbol with
        | none => none
        | some last_price =>
          if o.direction = "BUY" then some (last_price * (1 + DEFAULT_SLIPPAGE_PERCENT))
          else some last_price
      else o.price
    match estimated_price? with
    | none => 0
    | some estimated_price =>
      if estimated_price ≤ 0 then 0
      else
        let estimated_value := (o.quantity : ℚ) * estimated_price
        let commission := calculate_commission o.quantity estimated_price
        if o.direction = "BUY" then estimated_value + commission
        else estimated_value - commission

/-- Embeds BaseBroker._check_risk_before_order (lines 72-95): non-positive
quantity is blocked; a BUY is blocked when the estimate is not positive or
exceeds cash; a SELL is blocked when its quantity exceeds the CONFIRMED
held quantity (shorting disallowed). -/
def check_risk_before_order (st : BrokerState) (o : OrderEvent) : Bool :=
  if o.quantity ≤ 0 then false
  else if o.direction = "BUY" then
    let estimated_cost := estimate_order_cost st o
    if estimated_cost ≤ 0 then false
    else if st.cash < estimated_cost then false
    else true
  else if o.direction = "SELL" then
    let confirmed_qty := get_current_position_quantity st o.symbol
    if confirmed_qty < o.quantity then false else true
  else true

end BaseBroker

namespace MomentumBroker

open BaseBroker

/-- Embeds the LONG/SHORT sizing of MomentumBroker.on_signal
(trader_v2/components/portfolio.py lines 190-232), up to and including
construction of the OrderEvent and before the risk check: validate the
weight, require a positive feed price and a portfolio value above 1e-6,
compute target_value = max(0, value * weight), the target quantity
(negated for SHORT), and the difference against the CONFIRMED quantity;
compare against the 0.99-lot threshold and floor to a lot multiple. -/
def compute_order (lot_size : ℤ) (new_id : ℕ) (st : BrokerState)
    (sig : SignalEvent) : Option OrderEvent :=
  if ¬ (sig.direction = "LONG" ∨ sig.direction = "SHORT") then none
  else
    match sig.weight with
    | none => none
    | some weight =>
      if weight < 0 then none
      else
        match get_latest_price st sig.symbol with
        | none => none
        | some latest_price =>
          if latest_price ≤ 0 then none
          else
            let total_portfolio_value := get_total_portfolio_value st
            if total_portfolio_value ≤ 1 / 1000000 then none
            else
              let target_value := max 0 (total_portfolio_value * weight)
              let target_quantity_float :=
                if 1 / 1000000000 < latest_price then target_value / latest_price else 0
              let current_quantity := get_current_position_quantity st sig.symbol
              let adjusted_target_quantity_float :=
                if sig.direction = "LONG" then target_quantity_float else -target_quantity_float
              let quantity_difference_float :=
                adjusted_target_quantity_float - (current_quantity : ℚ)
              let decision : Option (String × ℤ) :=
                if (lot_size : ℚ) * (99 / 100) < quantity_difference_float then
                  some ("BUY", ⌊quantity_difference_float / (lot_size : ℚ)⌋ * lot_size)
                else if quantity_difference_float < -((lot_size : ℚ) * (99 / 100)) then
                  some ("SELL", ⌊|quantity_difference_float| / (lot_size : ℚ)⌋ * lot_size)
                else none
              match decision with
              | none => none
              | some dq =>
                if dq.2 ≤ 0 then none
                else some { id := new_id, symbol := sig.symbol, direction := dq.1
                            quantity := dq.2, order_type := "MARKET", price := none }

/-- Embeds MomentumBroker._generate_flat_order: an opposite-direction
order for the full confirmed quantity, queued after the risk check. -/
def generate_flat_order (new_id : ℕ) (st : BrokerState) (symbol : String)
    (quantity : ℤ) : BrokerState :=
  let current_quantity := get_current_position_quantity st symbol
  if current_quantity = 0 ∨ quantity ≤ 0 then st
  else
    let order_direction := if 0 < current_quantity then "SELL" else "BUY"
    let order_event : OrderEvent :=
      { id := new_id, symbol := symbol, direction := order_direction
        quantity := quantity, order_type := "MARKET", price := none }
    if check_risk_before_order st order_event then
      { st with pending_orders := SimulatedExecutionHandler.insert_order st.pending_orders order_event }
    else st

/-- Embeds MomentumBroker.on_signal: FLAT closes the confirmed position;
LONG/SHORT computes an order via the sizing above and queues it into the
broker-internal pending dict when the risk check passes (this broker
publishes no OrderEvent on the bus; it settles its own pending dict). -/
def on_signal (lot_size : ℤ) (new_id : ℕ) (st : BrokerState)
    (sig : SignalEvent) : BrokerState :=
  if sig.direction = "FLAT" then
    let confirmed_qty := get_current_position_quantity st sig.symbol
    if confirmed_qty = 0 then st
    else generate_flat_order new_id st sig.symbol |confirmed_qty|
  else
    match compute_order lot_size new_id st sig with
    | none => st
    | some order_event =>
      if check_risk_before_order st order_event then
        { st with pending_orders := SimulatedExecutionHandler.insert_order st.pending_orders order_event }
      else st

/-- The slippage-adjusted fill price of MomentumBroker.on_market_event
(lines 282-289): BUY pays up, SELL receives less. -/
def settle_fill_price (slippage_percent : ℚ) (o : OrderEvent) (base_simulated_price : ℚ) : ℚ :=
  let slippage_amount := base_simulated_price * slippage_percent
  if o.direction = "BUY" then base_simulated_price + slippage_amount
  else if o.direction = "SELL" then base_simulated_price - slippage_amount
  else base_simulated_price

/-- The position update of the BUY settlement branch (lines 313-339):
covering a short keeps or resets the basis, flipping long re-bases at the
fill price, adding to a long takes the volume-weighted average; the cost
basis is reset to 0 whenever the new quantity is exactly 0. -/
def settle_position_buy (o : OrderEvent) (final_fill_price : ℚ) (pos : Position) : Position :=
  let current_qty := pos.quantity
  let current_cost_basis := pos.cost_basis
  let new_total_qty := current_qty + o.quantity
  let cb1 :=
    if current_qty < 0 then
      if 0 < new_total_qty then final_fill_price
      else if new_total_qty = 0 then 0
      else current_cost_basis
    else
      if 0 < new_total_qty then
        ((current_qty : ℚ) * current_cost_basis + (o.quantity : ℚ) * final_fill_price) / (new_total_qty : ℚ)
      else 0
  { quantity := new_total_qty, cost_basis := if new_total_qty = 0 then 0 else cb1 }

/-- The position update of the SELL settlement branch (lines 346-376). -/
def settle_position_sell (o : OrderEvent) (final_fill_price : ℚ) (pos : Position) : Position :=
  let current_qty := pos.quantity
  let current_cost_basis := pos.cost_basis
  let new_total_qty := current_qty - o.quantity
  let cb1 :=
    if 0 < current_qty then
      if new_total_qty < 0 then final_fill_price
      else if new_total_qty = 0 then 0
      else current_cost_basis
    else
      if new_total_qty < 0 then
        ((|current_qty| : ℚ) * current_cost_basis + (o.quantity : ℚ) * final_fill_price) / ((|new_total_qty| : ℚ))
      else 0
  { quantity := new_total_qty, cost_basis := if new_total_qty = 0 then 0 else cb1 }

/-- Embeds the per-order settlement body of MomentumBroker.on_market_event
(lines 273-378): price from the data feed, slippage, commission; a BUY
whose cost exceeds cash (while not merely covering a short) is skipped;
otherwise cash is updated and the position follows settle_position_buy or
settle_position_sell. None means the order is skipped and stays pending. -/
def settle_one (commission_percent slippage_percent : ℚ) (st : BrokerState)
    (o : OrderEvent) : Option BrokerState :=
  match BaseBroker.get_latest_price st o.symbol with
  | none => none
  | some latest_price =>
    if latest_price ≤ 0 then none
    else
      let final_fill_price := settle_fill_price slippage_percent o latest_price
      if final_fill_price ≤ 0 then none
      else
        let simulated_commission := final_fill_price * (o.quantity : ℚ) * commission_percent
        let pos := (assocGet st.positions o.symbol).getD { quantity := 0, cost_basis := 0 }
        if o.direction = "BUY" then
          let cost := (o.quantity : ℚ) * final_fill_price + simulated_commission
          if st.cash < cost ∧ 0 < pos.quantity + o.quantity then none
          else
            some { st with
              cash := st.cash - cost
              positions := assocSet st.positions o.symbol
                (settle_position_buy o final_fill_price pos) }
        else if o.direction = "SELL" then
          let proceeds := (o.quantity : ℚ) * final_fill_price - simulated_commission
          some { st with
            cash := st.cash + proceeds
            positions := assocSet st.positions o.symbol
              (settle_position_sell o final_fill_price pos) }
        else some st

/-- The settlement loop of on_market_event over the pending-dict
snapshot: a settled order is removed from pending, a skipped one kept. -/
def settle_all (commission_percent slippage_percent : ℚ) :
    BrokerState → List OrderEvent → BrokerState
  | st, [] => st
  | st, o :: rest =>
    match settle_one commission_percent slippage_percent st o with
    | some st1 =>
      settle_all commission_percent slippage_percent
        { st1 with pending_orders := st1.pending_orders.filter (fun p => ¬ (p.id = o.id)) } rest
    | none => settle_all commission_percent slippage_percent st rest

/-- Embeds MomentumBroker.on_market_event: settle every pending order
(no per-symbol filter) on a strictly newer timestamp, then record it. -/
def on_market_event (commission_percent slippage_percent : ℚ)
    (st : BrokerState) (ev : MarketEvent) : BrokerState :=
  let is_new_time_step :=
    match st.last_market_timestamp with
    | none => true
    | some t => t < ev.timestamp
  if is_new_time_step = false then st
  else
    let st1 := settle_all commission_percent slippage_percent st st.pending_orders
    { st1 with last_market_timestamp := some ev.timestamp }

end MomentumBroker

namespace EventEngine

/-- An event consumed by the thread-based EventEngine of
trader/event_engine.py: a type tag and an opaque payload. -/
structure EngineEvent where
  event_type : String
  payload : ℕ
deriving DecidableEq, Repr

/-- A registered handler: its name and its behaviour on an event, where
an error value models the handler raising an exception with a message. -/
structure Handler where
  name : String
  outcome : EngineEvent → Except String Unit

/-- Observable record of a dispatch: the handlers invoked in order, and
the error log produced by the per-handler try/except blocks, each entry
carrying the handler name, the offending event and the message. -/
structure DispatchRecord where
  invoked : List String
  error_log : List (String × EngineEvent × String)
deriving DecidableEq, Repr

/-- The inner handler loop of EventEngine._run (lines 51-65): every
handler in the list is called; a raising handler adds an error-log entry
with the offending event and the loop continues with the next handler. -/
def call_handlers (ev : EngineEvent) (hs : List Handler) (acc : DispatchRecord) :
    DispatchRecord :=
  hs.foldl (fun a h =>
    match h.outcome ev with
    | Except.ok _ => { a with invoked := a.invoked ++ [h.name] }
    | Except.error msg =>
      { invoked := a.invoked ++ [h.name]
        error_log := a.error_log ++ [(h.name, ev, msg)] }) acc

/-- Dispatch of one dequeued event in EventEngine._run: the handlers
registered for its event type, then the general handlers. -/
def process_event (handlers_of : String → List Handler) (general : List Handler)
    (acc : DispatchRecord) (ev : EngineEvent) : DispatchRecord :=
  call_handlers ev general (call_handlers ev (handlers_of ev.event_type) acc)

/-- The dispatch loop of EventEngine._run over a finite queue of events:
the loop body never propagates a handler exception, so the loop reaches
every queued event. -/
def engine_run (handlers_of : String → List Handler) (general : List Handler)
    (events : List EngineEvent) : DispatchRecord :=
  events.foldl (process_event handlers_of general) { invoked := [], error_log := [] }

end EventEngine

namespace EventBusV2

/-!
The task-level dispatch semantics of trader-v2 EventBus.run
(core/event_bus.py lines 38-79), complementing the queue/drain scheduler
model below: here the observable is what happens to a handler exception.
EventBus._dispatch_event (lines 38-46) calls
asyncio.create_task(handler(event)) for each listener: create_task
schedules the coroutine and returns at once, so awaiting _dispatch_event
awaits only the task creations, and an exception raised inside a handler
is captured in its Task object, never propagating to the run loop. The
except branch of run (lines 67-71) — the only place that logs "Error
processing event" together with the event being processed — therefore
fires only for an exception of the loop body itself (queue.get, the task
creations, task_done), none of which a handler fault can raise; and the
shutdown path (lines 76-78) awaits the leftover tasks with
asyncio.gather(..., return_exceptions=True), which turns their stored
exceptions into discarded return values.
-/

/-- Observable state of the EventBus run loop: the handler tasks created
in order (line 44), the exceptions captured inside handler tasks, the
entries logged by run's except branch (line 68 — the dispatch boundary,
which has the event but no handler), and the number of task_done calls
(lines 62 and 71). -/
structure DispatchState where
  tasks_created : List String
  task_failures : List (String × EventEngine.EngineEvent × String)
  run_log : List (EventEngine.EngineEvent × String)
  queue_done : ℕ
deriving DecidableEq, Repr

/-- The listener loop of EventBus._dispatch_event (lines 43-46): one task
created per listener; a task whose coroutine raises keeps the exception
stored in the task object (create_task itself returns normally either
way, and the done-callback merely discards the task from the set). -/
def create_tasks (ev : EventEngine.EngineEvent) (hs : List EventEngine.Handler)
    (s : DispatchState) : DispatchState :=
  hs.foldl (fun a h =>
    match h.outcome ev with
    | Except.ok _ => { a with tasks_created := a.tasks_created ++ [h.name] }
    | Except.error msg =>
      { a with
        tasks_created := a.tasks_created ++ [h.name]
        task_failures := a.task_failures ++ [(h.name, ev, msg)] }) s

/-- The body of one run-loop iteration inside the try (lines 55-62):
queue.get, await _dispatch_event, task_done. None of these raises on a
handler fault — create_task returns normally and the handler's exception
stays inside the task — so the body always returns ok. -/
def run_body (listeners_of : String → List EventEngine.Handler)
    (s : DispatchState) (ev : EventEngine.EngineEvent) :
    Except String DispatchState :=
  let s1 := create_tasks ev (listeners_of ev.event_type) s
  Except.ok { s1 with queue_done := s1.queue_done + 1 }

/-- One run-loop iteration with its except branch (lines 53-71): an
exception escaping the body would be logged together with the event being
processed and task_done still called; the loop itself never stops on
it. -/
def run_step (listeners_of : String → List EventEngine.Handler)
    (s : DispatchState) (ev : EventEngine.EngineEvent) : DispatchState :=
  match run_body listeners_of s ev with
  | Except.ok s1 => s1
  | Except.error m =>
    { s with run_log := s.run_log ++ [(ev, m)], queue_done := s.queue_done + 1 }

/-- The run loop of EventBus.run over a finite queue of events. -/
def run_loop (listeners_of : String → List EventEngine.Handler)
    (events : List EventEngine.EngineEvent) : DispatchState :=
  events.foldl (run_step listeners_of)
    { tasks_created := [], task_failures := [], run_log := [], queue_done := 0 }

end EventBusV2

namespace EventBusModel

/-!
An executable model of the asyncio semantics of trader-v2:
EventBus.publish is asyncio.Queue.put_nowait; EventBus.run dequeues an
event, creates one task per subscribed handler WITHOUT awaiting them
(EventBus._dispatch_event) and immediately calls task_done;
EventBus.wait_until_queue_empty awaits Queue.join, which returns as soon
as the unfinished-task counter hits zero once (asyncio.locks.Event.wait
resumes its waiters when set fires, even if the flag is cleared again
before the waiter actually runs, and Queue.join does not re-check).
MockDataFeed.start_feed publishes one Market event per tick and awaits
wait_until_queue_empty before the next tick.

The single-threaded cooperative scheduler is modelled exactly: a FIFO
ready list of task continuations; each scheduler step runs the first
ready task until its next suspension point. The component graph is the
minimal replay graph of sample.py: a strategy handler subscribed to
Market events that publishes one Signal event, and a portfolio handler
subscribed to Signal events.
-/

/-- Events flowing through the modelled bus. -/
inductive BusEvent
  | market (n : ℕ)
  | signal (n : ℕ)
deriving DecidableEq, Repr

/-- Task continuations of the cooperative scheduler: the EventBus.run
loop, the MockDataFeed.start_feed coroutine, and one task per handler
invocation created by _dispatch_event. -/
inductive BusTask
  | run_loop
  | feed
  | market_handler (n : ℕ)
  | signal_handler (n : ℕ)
deriving DecidableEq, Repr

/-- Observable actions, recorded in program order. -/
inductive BusObs
  | published (e : BusEvent)
  | drain_returned (k : ℕ)
  | handler_finished (t : BusTask)
deriving DecidableEq, Repr

/-- Joint state of the queue (items, unfinished counter, finished-event
flag and its single waiter), the run loop getter, the FIFO ready list,
and the feed position, plus the observation log. -/
structure BusState where
  queue_items : List BusEvent
  unfinished : ℕ
  finished_value : Bool
  feed_waiting : Bool
  getter_waiting : Bool
  ready : List BusTask
  feed_ticks : List ℕ
  feed_started : Bool
  drains : ℕ
  log : List BusObs
deriving DecidableEq, Repr

/-- asyncio.Queue.put_nowait: append the item, bump the unfinished
counter, clear the finished event, and wake a pending getter. -/
def put_nowait (s : BusState) (e : BusEvent) : BusState :=
  let s1 := { s with
    queue_items := s.queue_items ++ [e]
    unfinished := s.unfinished + 1
    finished_value := false
    log := s.log ++ [BusObs.published e] }
  if s1.getter_waiting then
    { s1 with getter_waiting := false, ready := s1.ready ++ [BusTask.run_loop] }
  else s1

/-- asyncio.Queue.task_done: decrement the counter; on reaching zero set
the finished event, which schedules the join waiter (the feed). -/
def task_done (s : BusState) : BusState :=
  let u := s.unfinished - 1
  if u = 0 then
    let s1 := { s with unfinished := u, finished_value := true }
    if s1.feed_waiting then
      { s1 with feed_waiting := false, ready := s1.ready ++ [BusTask.feed] }
    else s1
  else { s with unfinished := u }

/-- The subscription table of the modelled replay graph. -/
def handlers_for : BusEvent → List BusTask
  | BusEvent.market n => [BusTask.market_handler n]
  | BusEvent.signal n => [BusTask.signal_handler n]

/-- The EventBus.run loop body while items are available: pop the event,
create (without awaiting) one task per handler, call task_done, repeat;
await queue.get only suspends once the queue is empty. No new items can
appear during this inline loop because handler tasks have not run yet. -/
def run_loop_go : List BusEvent → BusState → BusState
  | [], s => { s with getter_waiting := true }
  | e :: todo, s =>
    run_loop_go todo (task_done { s with ready := s.ready ++ handlers_for e })

/-- One scheduler step of the EventBus.run task. -/
def run_loop_exec (s : BusState) : BusState :=
  run_loop_go s.queue_items { s with queue_items := [] }

/-- MockDataFeed.start_feed loop: publish the Market event for the next
tick, then await wait_until_queue_empty, i.e. Queue.join: if the counter
is positive and the finished flag is clear (always the case right after
put_nowait), register as the finished-event waiter and suspend. -/
def feed_loop : List ℕ → BusState → BusState
  | [], s => s
  | t :: rest, s =>
    let s1 := put_nowait { s with feed_ticks := rest } (BusEvent.market t)
    if s1.unfinished = 0 then feed_loop rest s1
    else if s1.finished_value then feed_loop rest s1
    else { s1 with feed_waiting := true }

/-- One scheduler step of the feed task: a resumption of the join await
(a completed drain) is logged, then the loop continues. -/
def feed_exec (s : BusState) : BusState :=
  if s.feed_started then
    feed_loop s.feed_ticks
      { s with drains := s.drains + 1, log := s.log ++ [BusObs.drain_returned (s.drains + 1)] }
  else feed_loop s.feed_ticks { s with feed_started := true }

/-- The strategy handler task: on Market n it publishes Signal n
(MomentumStrategy.on_market_data publishing a SignalEvent). -/
def market_handler_exec (n : ℕ) (s : BusState) : BusState :=
  let s1 := put_nowait s (BusEvent.signal n)
  { s1 with log := s1.log ++ [BusObs.handler_finished (BusTask.market_handler n)] }

/-- The portfolio handler task for Signal n. -/
def signal_handler_exec (n : ℕ) (s : BusState) : BusState :=
  { s with log := s.log ++ [BusObs.handler_finished (BusTask.signal_handler n)] }

/-- One step of the FIFO cooperative scheduler: run the first ready task
until its next suspension point. -/
def sched_step (s : BusState) : BusState :=
  match s.ready with
  | [] => s
  | t :: rest =>
    let s0 := { s with ready := rest }
    match t with
    | BusTask.run_loop => run_loop_exec s0
    | BusTask.feed => feed_exec s0
    | BusTask.market_handler n => market_handler_exec n s0
    | BusTask.signal_handler n => signal_handler_exec n s0

/-- Iterated scheduler. -/
def sched_run : ℕ → BusState → BusState
  | 0, s => s
  | n + 1, s => sched_run n (sched_step s)

/-- Initial state of a two-tick replay: the bus run task and the feed
task are created, the queue is empty and the finished event starts set. -/
def replay_init : BusState :=
  { queue_items := []
    unfinished := 0
    finished_value := true
    feed_waiting := false
    getter_waiting := false
    ready := [BusTask.run_loop, BusTask.feed]
    feed_ticks := [1, 2]
    feed_started := false
    drains := 0
    log := [] }

end EventBusModel

/-- Keyword-accepting field list of the SignalEvent dataclass as declared
in trader-v2/core/events.py lines 26-35: the inherited fields type,
timestamp, id and the declared fields symbol and direction; the weight
field is commented out there (lines 33-34). -/
def SignalEventDataclassFields : List String :=
  ["type", "timestamp", "id", "symbol", "direction"]

/-- Keyword arguments of the SignalEvent construction performed by
MomentumStrategy.on_market_data (strategy.py lines 103 and 110). -/
def MomentumStrategySignalKwargs : List String :=
  ["symbol", "direction", "weight"]

/-- A Python dataclass constructor accepts a keyword call exactly when
every keyword names a declared field; an unknown keyword raises
TypeError. -/
def dataclass_accepts_kwargs (fields kwargs : List String) : Bool :=
  kwargs.all (fun k => fields.contains k)

/-- Modelled from the spec wording of claim C8: target_quantity =
max(0, total_portfolio_value * weight) / latest_price, negated for
SHORT. -/
def spec_target_quantity (total_value weight price : ℚ) (direction : String) : ℚ :=
  let tq := max 0 (total_value * weight) / price
  if direction = "SHORT" then -tq else tq

/-- Modelled from the spec wording of claim C8: delta = target_quantity
minus the current position quantity. -/
def spec_delta (total_value weight price : ℚ) (direction : String) (current : ℤ) : ℚ :=
  spec_target_quantity total_value weight price direction - (current : ℚ)

/-!
Concrete scenario data used by the counterexample theorems and witnesses
below. All numbers mirror the configuration of trader-v2/sample.py
(commission 0.001, slippage 0.0005 for the execution handler; lot size
100 in the scenario of the spec).
-/

/-- A pending AAPL market BUY order. -/
def c2_order : OrderEvent :=
  { id := 1, symbol := "AAPL", direction := "BUY", quantity := 100, order_type := "MARKET" }

/-- A later tick for a different symbol. -/
def c2_market : MarketEvent :=
  { symbol := "MSFT", timestamp := 2, openPx := some 100, closePx := some 101 }

/-- Portfolio state before the C3 order: 100 in cash, last AAPL price 99. -/
def c3_state : BasePortfolio.PortfolioState :=
  { cash := 100, positions := [], pending_orders := [], reserved_cash := 0
    pending_position_changes := [], last_market_prices := [("AAPL", 99)] }

/-- A one-share market BUY of AAPL. -/
def c3_order : OrderEvent :=
  { id := 7, symbol := "AAPL", direction := "BUY", quantity := 1, order_type := "MARKET" }

/-- The portfolio state after the C3 order was accepted and placed
(pending order recorded, estimated cost reserved, pending change 1). -/
def c3_queued : BasePortfolio.PortfolioState :=
  { c3_state with
    pending_orders := [c3_order]
    reserved_cash := BasePortfolio.estimate_order_cost c3_state c3_order
    pending_position_changes := [("AAPL", 1)] }

/-- The next AAPL tick gaps up to 200. -/
def c3_market : MarketEvent :=
  { symbol := "AAPL", timestamp := 2, openPx := some 200, closePx := some 200 }

/-- The fill the execution handler produces for the C3 order at the 200
tick with slippage 0.0005 and commission 0.001. -/
def c3_fill : FillEvent :=
  { order_id := 7, symbol := "AAPL", direction := "BUY", quantity := 1
    price := 2001 / 10, commission := 2001 / 10000, timestamp := 2 }

/-- Portfolio state for C5: no confirmed AAPL position, but a pending BUY
of 100 shares (pending position change +100), last AAPL price 10. -/
def c5_state : BasePortfolio.PortfolioState :=
  { cash := 1000, positions := []
    pending_orders := [{ id := 3, symbol := "AAPL", direction := "BUY", quantity := 100, order_type := "MARKET" }]
    reserved_cash := 0
    pending_position_changes := [("AAPL", 100)]
    last_market_prices := [("AAPL", 10)] }

/-- A LONG signal with target weight 0 (liquidate the target). -/
def c5_signal : SignalEvent := { symbol := "AAPL", direction := "LONG", weight := some 0 }

/-- The SELL order the dash portfolio publishes in the C5 scenario. -/
def c5_sell : OrderEvent :=
  { id := 42, symbol := "AAPL", direction := "SELL", quantity := 100, order_type := "MARKET" }

/-- Portfolio state for C6: a short AAPL position of -10 at cost basis 50. -/
def c6_state : BasePortfolio.PortfolioState :=
  { cash := 1000, positions := [("AAPL", { quantity := -10, cost_basis := 50 })]
    pending_orders := [], reserved_cash := 0, pending_position_changes := []
    last_market_prices := [] }

/-- A BUY fill of 10 shares at 60 covering the short exactly to zero. -/
def c6_fill : FillEvent :=
  { order_id := 9, symbol := "AAPL", direction := "BUY", quantity := 10
    price := 60, commission := 0, timestamp := 5 }

/-- Portfolio state for C8: flat, 10000 cash, last AAPL price 10. -/
def c8_state : BasePortfolio.PortfolioState :=
  { cash := 10000, positions := [], pending_orders := [], reserved_cash := 0
    pending_position_changes := [], last_market_prices := [("AAPL", 10)] }

/-- A SHORT signal with weight 0.5. -/
def c8_signal : SignalEvent := { symbol := "AAPL", direction := "SHORT", weight := some (1 / 2) }

/-- The BUY order the dash portfolio publishes in the C8 scenario. -/
def c8_buy : OrderEvent :=
  { id := 11, symbol := "AAPL", direction := "BUY", quantity := 500, order_type := "MARKET" }

/-- Broker state for the C8 witness: flat, 10000 cash, feed price 10. -/
def c8_broker_state : BaseBroker.BrokerState :=
  { cash := 10000, positions := [], pending_orders := [], nav_history := []
    last_nav_timestamp := none, last_market_timestamp := none
    feed_prices := [("AAPL", 10)] }

/-- A LONG signal with weight 0.5 for the C8 witness. -/
def c8_long_signal : SignalEvent := { symbol := "AAPL", direction := "LONG", weight := some (1 / 2) }

/-- A handler that succeeds on every event. -/
def c7_good : EventEngine.Handler := { name := "good", outcome := fun _ => Except.ok () }

/-- A handler that raises on every event. -/
def c7_bad : EventEngine.Handler := { name := "bad", outcome := fun _ => Except.error "boom" }

/-- Subscription table for the C7 witness: both handlers listen to MARKET. -/
def c7_handlers_of : String → List EventEngine.Handler := fun _ => [c7_bad, c7_good]

/-- The event fed to the engine in the C7 witness. -/
def c7_event : EventEngine.EngineEvent := { event_type := "MARKET", payload := 0 }

/-- Execution state for the C2 witness: the last processed tick is 1. -/
def c2w_state : SimulatedExecutionHandler.ExecState :=
  { pending_orders := [], last_market_timestamp := some 1, last_market_prices := [] }

/-- The settling tick of the C2 witness. -/
def c2w_market : MarketEvent :=
  { symbol := "AAPL", timestamp := 2, openPx := some 100, closePx := some 100 }

/-- The delivery trace of the C2 witness: a tick at timestamp 2. -/
def c2w_trace : List SimulatedExecutionHandler.ExecInput :=
  [SimulatedExecutionHandler.ExecInput.market c2w_market]

/-- The fill produced in the C2 witness. -/
def c2w_fill : FillEvent :=
  { order_id := 1, symbol := "AAPL", direction := "BUY", quantity := 100
    price := 2001 / 20, commission := 2001 / 200, timestamp := 2 }

/-- The delivery trace of the C4 witness. -/
def c4w_trace : List SimulatedExecutionHandler.ExecInput :=
  [SimulatedExecutionHandler.ExecInput.order c2_order,
   SimulatedExecutionHandler.ExecInput.market c2w_market]

/-- Execution state for the C2 amended-theorem witness: one pending
order and last processed tick 1. -/
def c2w_state2 : SimulatedExecutionHandler.ExecState :=
  { pending_orders := [c2_order], last_market_timestamp := some 1, last_market_prices := [] }

/-- An affordable BUY fill of 1 share at 10 used by the C3 witness. -/
def c3w_fill : FillEvent :=
  { order_id := 1, symbol := "AAPL", direction := "BUY", quantity := 1
    price := 10, commission := 0, timestamp := 3 }

/-- Portfolio state for the C5 witness: 100 confirmed AAPL shares. -/
def c5w_state : BasePortfolio.PortfolioState :=
  { cash := 10000, positions := [("AAPL", { quantity := 100, cost_basis := 10 })]
    pending_orders := [], reserved_cash := 0, pending_position_changes := []
    last_market_prices := [("AAPL", 10)] }

/-- A SELL of 50 against 100 confirmed shares, passing the risk check. -/
def c5w_sell : OrderEvent :=
  { id := 7, symbol := "AAPL", direction := "SELL", quantity := 50, order_type := "MARKET" }

/-- A SELL of 10 against a flat broker, blocked by the risk check. -/
def c5w_broker_sell : OrderEvent :=
  { id := 8, symbol := "AAPL", direction := "SELL", quantity := 10, order_type := "MARKET" }

/-- A LONG signal with no weight: on_signal publishes nothing. -/
def c5w_skip_signal : SignalEvent :=
  { symbol := "AAPL", direction := "LONG", weight := none }

/-- Portfolio state for the C6 witness: long 5 AAPL at basis 50. -/
def c6w_state : BasePortfolio.PortfolioState :=
  { cash := 1000, positions := [("AAPL", { quantity := 5, cost_basis := 50 })]
    pending_orders := [], reserved_cash := 0, pending_position_changes := []
    last_market_prices := [] }

/-- A SELL fill closing the 5-share position exactly to zero. -/
def c6w_sell_fill : FillEvent :=
  { order_id := 12, symbol := "AAPL", direction := "SELL", quantity := 5
    price := 60, commission := 0, timestamp := 7 }

/-- Broker state for the C6 witness: long 10 AAPL at basis 50, feed 10. -/
def c6w_broker_state : BaseBroker.BrokerState :=
  { cash := 1000, positions := [("AAPL", { quantity := 10, cost_basis := 50 })]
    pending_orders := [], nav_history := [], last_nav_timestamp := none
    last_market_timestamp := none, feed_prices := [("AAPL", 10)] }

/-- A SELL order closing the broker position exactly to zero. -/
def c6w_broker_sell : OrderEvent :=
  { id := 13, symbol := "AAPL", direction := "SELL", quantity := 10, order_type := "MARKET" }

/-- The broker state after settling the C6 witness SELL with zero
commission and slippage: cash up by the proceeds, position reset. -/
def c6w_settled : BaseBroker.BrokerState :=
  { cash := 1100, positions := [("AAPL", { quantity := 0, cost_basis := 0 })]
    pending_orders := [], nav_history := [], last_nav_timestamp := none
    last_market_timestamp := none, feed_prices := [("AAPL", 10)] }

/-!
Claim theorems. Each claim of CLAIMS.json has exactly one theorem, plus a
counterexample or witness where required.
-/

/-- Claim C1 (code_bug evidence): in the exact asyncio semantics of
EventBus.run / wait_until_queue_empty / MockDataFeed.start_feed, the
replay drain does NOT wait for handler completion. Running the two-tick
replay scheduler: after five scheduler steps the first drain has already
returned (drains = 1) while Signal 1 — published by tick 1's strategy
handler — is still sitting unprocessed in the queue, and Market 2 has
already been published behind it; the full log shows drain_returned 1
and published (market 2) both occurring BEFORE the Signal-1 handler
finishes. The claim states the drain returns only after every handler
invocation for queued events, and everything they publish recursively,
has fully completed, and that therefore every consequence of tick N is
resolved before tick N+1 enters the system; the trace refutes both
consequences. Root cause: _dispatch_event fire-and-forgets handler tasks
and run calls task_done immediately, so Queue.join returns early. -/
theorem C1_drain_returns_early :
    (EventBusModel.sched_run 5 EventBusModel.replay_init).drains = 1
    ∧ (EventBusModel.sched_run 5 EventBusModel.replay_init).queue_items
        = [EventBusModel.BusEvent.signal 1, EventBusModel.BusEvent.market 2]
    ∧ (EventBusModel.sched_run 7 EventBusModel.replay_init).log
        = [EventBusModel.BusObs.published (EventBusModel.BusEvent.market 1),
           EventBusModel.BusObs.published (EventBusModel.BusEvent.signal 1),
           EventBusModel.BusObs.handler_finished (EventBusModel.BusTask.market_handler 1),
           EventBusModel.BusObs.drain_returned 1,
           EventBusModel.BusObs.published (EventBusModel.BusEvent.market 2),
           EventBusModel.BusObs.handler_finished (EventBusModel.BusTask.signal_handler 1)] := by
  refine ⟨rfl, rfl, rfl⟩

/-- Claim C2, counterexample: a pending AAPL order is settled by a MSFT
tick. The claim says only pending orders whose symbol is observed in the
current tick are eligible for settlement; the settlement loop of
_on_market_event_for_settlement iterates over every pending order with no
symbol comparison, and even prices the AAPL fill off the MSFT bar. -/
theorem C2_cross_symbol_settlement :
    c2_order.symbol = "AAPL" ∧ c2_market.symbol = "MSFT"
    ∧ ((SimulatedExecutionHandler.exec_run (1/1000) (5/10000)
          SimulatedExecutionHandler.exec_init
          [SimulatedExecutionHandler.ExecInput.order c2_order,
           SimulatedExecutionHandler.ExecInput.market c2_market]).2.map
        FillEvent.order_id) = [c2_order.id] := by
  refine ⟨rfl, rfl, ?_⟩
  norm_num [SimulatedExecutionHandler.exec_run, SimulatedExecutionHandler.exec_step,
    SimulatedExecutionHandler.on_market_event_for_settlement, SimulatedExecutionHandler.settle_loop,
    SimulatedExecutionHandler.settle_order, SimulatedExecutionHandler.base_simulated_price,
    SimulatedExecutionHandler.is_new_time_step, SimulatedExecutionHandler.insert_order,
    SimulatedExecutionHandler.update_last_price_for_symbol, SimulatedExecutionHandler.exec_init,
    c2_order, c2_market, assocSet]

/-- Claim C3, counterexample: an accepted BUY settles into negative cash.
With 100 cash and a last AAPL price of 99, the one-share BUY passes
_check_risk_before_order (estimated cost about 99.15); the next tick
opens at 200, the execution handler fills at 200.1 with commission
0.2001, and _update_state_from_fill drives cash to -100.3001 < 0. This
refutes the claim's clause that settlement of an accepted BUY never
drives cash negative. -/
theorem C3_cash_negative_after_settlement :
    BasePortfolio.check_risk_before_order c3_state c3_order = true
    ∧ SimulatedExecutionHandler.settle_order (1/1000) (5/10000) c3_market c3_order
        = some c3_fill
    ∧ (BasePortfolio.update_state_from_fill c3_queued c3_fill).cash < 0 := by
  refine ⟨?_, ?_, ?_⟩
  · norm_num [BasePortfolio.check_risk_before_order, BasePortfolio.estimate_order_cost,
      BasePortfolio.get_latest_price, BasePortfolio.calculate_commission,
      c3_state, c3_order, assocGet, DEFAULT_COMMISSION_RATE, DEFAULT_SLIPPAGE_PERCENT,
      abs_of_pos]
  · norm_num [SimulatedExecutionHandler.settle_order,
      SimulatedExecutionHandler.base_simulated_price, c3_market, c3_order, c3_fill]
  · norm_num [BasePortfolio.update_state_from_fill, BasePortfolio.revert_pending,
      BasePortfolio.estimate_order_cost, BasePortfolio.get_latest_price,
      BasePortfolio.calculate_commission, BasePortfolio.get_position,
      c3_queued, c3_state, c3_order, c3_fill, assocGet, assocSet,
      DEFAULT_COMMISSION_RATE, DEFAULT_SLIPPAGE_PERCENT, abs_of_pos]

/-- Claim C5, counterexample: with zero confirmed AAPL shares but a
pending BUY of 100 (pending position change +100), a LONG signal with
weight 0 makes MomentumPortfolio.on_signal publish a SELL order of 100
shares — a generated SELL whose quantity (100) exceeds the confirmed
position quantity held before the sell (0), because
_check_risk_before_order compares against the projected quantity,
confirmed plus pending, not the held quantity. -/
theorem C5_sell_exceeds_confirmed :
    (MomentumPortfolio.on_signal 100 42 c5_state c5_signal).2 = some c5_sell
    ∧ c5_sell.direction = "SELL"
    ∧ BasePortfolio.get_current_position_quantity c5_state "AAPL" = 0
    ∧ (0 : ℤ) < c5_sell.quantity := by
  refine ⟨?_, rfl, rfl, by decide⟩
  norm_num +decide [MomentumPortfolio.on_signal, MomentumPortfolio.place_order,
    MomentumPortfolio.generate_flat_order,
    BasePortfolio.get_latest_price, BasePortfolio.get_total_portfolio_value,
    BasePortfolio.get_projected_position_quantity, BasePortfolio.get_current_position_quantity,
    BasePortfolio.get_position, BasePortfolio.check_risk_before_order,
    BasePortfolio.estimate_order_cost, BasePortfolio.calculate_commission,
    BasePortfolio.add_pending_change, SimulatedExecutionHandler.insert_order,
    c5_state, c5_signal, c5_sell, assocGet, assocSet,
    DEFAULT_COMMISSION_RATE, DEFAULT_SLIPPAGE_PERCENT, abs_of_pos]

/-- Claim C6, counterexample: a BUY fill of 10 shares at price 60 on a
short position of -10 brings the quantity back to exactly 0, yet
_update_state_from_fill sets the cost basis to the fill price 60 instead
of resetting it to 0 (the BUY branch has no zero-quantity reset; only the
SELL branch resets). -/
theorem C6_buy_cover_cost_basis :
    (BasePortfolio.get_position (BasePortfolio.update_state_from_fill c6_state c6_fill)
        "AAPL").quantity = 0
    ∧ (BasePortfolio.get_position (BasePortfolio.update_state_from_fill c6_state c6_fill)
        "AAPL").cost_basis = 60 := by
  refine ⟨by decide, by decide⟩

/-- Claim C8, counterexample: on a SHORT signal with weight 0.5 over a
flat 10000-cash portfolio at price 10, MomentumPortfolio.on_signal does
not negate the target quantity: it publishes a BUY of 500 shares, while
the claim's formula gives delta = -500 < 0 and therefore a SELL. -/
theorem C8_short_not_negated :
    (MomentumPortfolio.on_signal 100 11 c8_state c8_signal).2 = some c8_buy
    ∧ c8_buy.direction = "BUY" ∧ c8_buy.quantity = 500
    ∧ spec_delta 10000 (1/2) 10 "SHORT" 0 < 0 := by
  refine ⟨?_, rfl, rfl, ?_⟩
  · norm_num +decide [MomentumPortfolio.on_signal, MomentumPortfolio.place_order,
      MomentumPortfolio.generate_flat_order,
      BasePortfolio.get_latest_price, BasePortfolio.get_total_portfolio_value,
      BasePortfolio.get_projected_position_quantity, BasePortfolio.get_current_position_quantity,
      BasePortfolio.get_position, BasePortfolio.check_risk_before_order,
      BasePortfolio.estimate_order_cost, BasePortfolio.calculate_commission,
      BasePortfolio.add_pending_change, SimulatedExecutionHandler.insert_order,
      c8_state, c8_signal, c8_buy, assocGet, assocSet,
      DEFAULT_COMMISSION_RATE, DEFAULT_SLIPPAGE_PERCENT, abs_of_pos]
  · norm_num [spec_delta, spec_target_quantity]

/-- Claim C9 (code_bug evidence): the SignalEvent dataclass of
trader-v2/core/events.py declares no weight field (it is commented out),
so the keyword construction performed by MomentumStrategy.on_market_data
— which passes weight — is rejected (TypeError: unexpected keyword
argument), even though that call site and MomentumPortfolio.on_signal
both require the weight attribute the claim describes. -/
theorem C9_weight_field_missing :
    dataclass_accepts_kwargs SignalEventDataclassFields MomentumStrategySignalKwargs = false
    ∧ SignalEventDataclassFields.contains "weight" = false
    ∧ MomentumStrategySignalKwargs.contains "weight" = true := by
  refine ⟨rfl, rfl, rfl⟩

/-- Claim C10 (code_bug evidence): BasePortfolio.__init__ of trader-v2
accepts a negative initial cash without any validation or failure — it
simply records cash = -100 and empty books, after which the run proceeds
to dispatch events as usual. The claim says a run configured with
non-positive initial cash fails before any events are dispatched with a
clear diagnostic and no summary. No runnable code implements that:
trader-v2's wiring (sample.py main) performs no validation at all, and
trader/backtest.py — which contains the intended _validate_config_func —
cannot even be imported (its module imports name trader.base.event and
trader.backtester.portfolio, which do not exist, and trader.base exports
none of DataFeed, Strategy, PortfolioManager, Execution); were it
importable, a validation failure would still crash run_backtest's finally
block with UnboundLocalError on the local engine (bound only at line 154,
after validation, yet read at line 210) instead of returning the
diagnostic record, and a valid configuration would raise NameError in
_resolve_class (importlib is never imported) and AttributeError on
engine.is_running, so no configuration can complete with a summary. -/
theorem C10_no_validation_in_v2 :
    BasePortfolio.base_portfolio_init (-100)
      = { cash := -100, positions := [], pending_orders := [], reserved_cash := 0
          pending_position_changes := [], last_market_prices := [] }
    ∧ (BasePortfolio.base_portfolio_init (-100)).cash < 0 := by
  refine ⟨rfl, by decide⟩

namespace SimulatedExecutionHandler

theorem settle_order_fields (cp sp : ℚ) (ev : MarketEvent) (o : OrderEvent) (f : FillEvent)
    (h : settle_order cp sp ev o = some f) :
    f.order_id = o.id ∧ f.timestamp = ev.timestamp := by
  rcases hb : base_simulated_price ev with _ | base
  · simp only [settle_order, hb] at h
    exact absurd h (by simp)
  · simp only [settle_order, hb] at h
    repeat' split at h
    all_goals
      first
        | (rw [Option.some.injEq] at h; subst h; exact ⟨rfl, rfl⟩)
        | simp at h

theorem settle_loop_fill_ts (cp sp : ℚ) (ev : MarketEvent) (l : List OrderEvent)
    (f : FillEvent) (hf : f ∈ (settle_loop cp sp ev l).2) : f.timestamp = ev.timestamp := by
  induction l with
  | nil => simp [settle_loop] at hf
  | cons o rest ih =>
    rcases hs : settle_order cp sp ev o with _ | f0 <;>
      simp only [settle_loop, hs, List.mem_cons] at hf
    · exact ih hf
    · rcases hf with hf | hf
      · subst hf; exact (settle_order_fields cp sp ev o f hs).2
      · exact ih hf

theorem settle_loop_settles_mem (cp sp : ℚ) (ev : MarketEvent) (l : List OrderEvent)
    (o : OrderEvent) (f : FillEvent) (ho : o ∈ l)
    (hs : settle_order cp sp ev o = some f) : f ∈ (settle_loop cp sp ev l).2 := by
  induction l with
  | nil => simp at ho
  | cons o1 rest ih =>
    rcases List.mem_cons.mp ho with ho1 | ho1
    · subst ho1
      simp only [settle_loop, hs]
      exact List.mem_cons_self _ _
    · rcases hs1 : settle_order cp sp ev o1 with _ | f1 <;>
        simp only [settle_loop, hs1, List.mem_cons]
      · exact ih ho1
      · exact Or.inr (ih ho1)

theorem exec_step_lastts_mono (cp sp : ℚ) (s : ExecState) (i : ExecInput) (T : ℕ)
    (h : s.last_market_timestamp = some T) :
    ∃ T2, T ≤ T2 ∧ (exec_step cp sp s i).1.last_market_timestamp = some T2 := by
  cases i with
  | order o => exact ⟨T, le_refl T, h⟩
  | market ev =>
    simp only [exec_step, on_market_event_for_settlement]
    by_cases hn : is_new_time_step s ev = true
    · rw [if_pos hn]
      refine ⟨ev.timestamp, ?_, rfl⟩
      unfold is_new_time_step at hn
      rw [h] at hn
      exact le_of_lt (by exact_mod_cast of_decide_eq_true hn)
    · rw [if_neg hn]
      exact ⟨T, le_refl T, h⟩

theorem exec_step_fill_ts (cp sp : ℚ) (s : ExecState) (i : ExecInput) (T : ℕ) (f : FillEvent)
    (h : s.last_market_timestamp = some T)
    (hf : f ∈ (exec_step cp sp s i).2) : T < f.timestamp := by
  cases i with
  | order o => simp [exec_step] at hf
  | market ev =>
    simp only [exec_step, on_market_event_for_settlement] at hf
    by_cases hn : is_new_time_step s ev = true
    · rw [if_pos hn] at hf
      have hts := settle_loop_fill_ts cp sp ev s.pending_orders f hf
      rw [hts]
      unfold is_new_time_step at hn
      rw [h] at hn
      exact of_decide_eq_true hn
    · rw [if_neg hn] at hf
      simp at hf

theorem exec_run_fill_ts (cp sp : ℚ) (tr : List ExecInput) (s : ExecState) (T : ℕ) (f : FillEvent)
    (h : s.last_market_timestamp = some T)
    (hf : f ∈ (exec_run cp sp s tr).2) : T < f.timestamp := by
  induction tr generalizing s T with
  | nil => simp [exec_run] at hf
  | cons i rest ih =>
    simp only [exec_run, List.mem_append] at hf
    rcases hf with hf | hf
    · exact exec_step_fill_ts cp sp s i T f h hf
    · obtain ⟨T2, hT2, hlast⟩ := exec_step_lastts_mono cp sp s i T h
      exact lt_of_le_of_lt hT2 (ih _ T2 hlast hf)

end SimulatedExecutionHandler

/-- Claim C2 (amended): the no-lookahead half of the claim holds — every
fill produced by an execution-handler run on a state whose last processed
timestamp is T carries a timestamp strictly greater than T, so an order
created in response to tick T is never settled at tick T's own price.
The per-symbol eligibility half is corrected: on a new timestamp the
handler settles EVERY pending order whose symbol has a stored price,
whether or not that symbol is observed in the current tick (the
counterexample shows an MSFT tick settling an AAPL order). -/
theorem C2_no_lookahead_amended (cp sp : ℚ) :
    (∀ (s : SimulatedExecutionHandler.ExecState)
       (tr : List SimulatedExecutionHandler.ExecInput) (T : ℕ) (f : FillEvent),
       s.last_market_timestamp = some T →
       f ∈ (SimulatedExecutionHandler.exec_run cp sp s tr).2 →
       T < f.timestamp)
    ∧ (∀ (s : SimulatedExecutionHandler.ExecState) (ev : MarketEvent)
       (o : OrderEvent) (f : FillEvent),
       o ∈ s.pending_orders →
       SimulatedExecutionHandler.is_new_time_step s ev = true →
       SimulatedExecutionHandler.settle_order cp sp ev o = some f →
       f ∈ (SimulatedExecutionHandler.on_market_event_for_settlement cp sp s ev).2) := by
  constructor
  · intro s tr T f h hf
    exact SimulatedExecutionHandler.exec_run_fill_ts cp sp tr s T f h hf
  · intro s ev o f ho hn hs
    simp only [SimulatedExecutionHandler.on_market_event_for_settlement, hn, if_true]
    exact SimulatedExecutionHandler.settle_loop_settles_mem cp sp ev s.pending_orders o f ho hs

/-- Claim C2 (witness): on the concrete one-order trace the amended
theorem yields a fill at timestamp 2, strictly after the pending state's
last timestamp 1. -/
theorem C2_no_lookahead_witness :
    c2w_state2.last_market_timestamp = some 1
    ∧ c2w_fill ∈ (SimulatedExecutionHandler.exec_run (1/1000) (5/10000) c2w_state2 c2w_trace).2
    ∧ 1 < c2w_fill.timestamp := by
  have hmem : c2w_fill ∈ (SimulatedExecutionHandler.exec_run (1/1000) (5/10000) c2w_state2 c2w_trace).2 := by
    norm_num [SimulatedExecutionHandler.exec_run, SimulatedExecutionHandler.exec_step,
      SimulatedExecutionHandler.on_market_event_for_settlement, SimulatedExecutionHandler.settle_loop,
      SimulatedExecutionHandler.settle_order, SimulatedExecutionHandler.base_simulated_price,
      SimulatedExecutionHandler.is_new_time_step, SimulatedExecutionHandler.update_last_price_for_symbol,
      c2w_state2, c2w_trace, c2w_market, c2_order, c2w_fill, assocSet]
  exact ⟨rfl, hmem,
    (C2_no_lookahead_amended (1/1000) (5/10000)).1 c2w_state2 c2w_trace 1 c2w_fill rfl hmem⟩

namespace SimulatedExecutionHandler

theorem insert_order_fresh (pending : List OrderEvent) (o : OrderEvent)
    (h : o.id ∉ pending.map OrderEvent.id) : insert_order pending o = pending ++ [o] := by
  unfold insert_order
  rw [if_neg]
  simp only [List.any_eq_true, decide_eq_true_eq, not_exists]
  rintro p ⟨hp, hpid⟩
  exact h (hpid ▸ List.mem_map_of_mem OrderEvent.id hp)

theorem settle_loop_ids_perm (cp sp : ℚ) (ev : MarketEvent) (l : List OrderEvent) :
    ((settle_loop cp sp ev l).1.map OrderEvent.id
      ++ (settle_loop cp sp ev l).2.map FillEvent.order_id).Perm
      (l.map OrderEvent.id) := by
  induction l with
  | nil => simp [settle_loop]
  | cons o rest ih =>
    rcases hr : settle_loop cp sp ev rest with ⟨keep, fills⟩
    rw [hr] at ih
    rcases hs : settle_order cp sp ev o with _ | f
    · simp only [settle_loop, hs, hr, List.map_cons, List.cons_append]
      exact List.Perm.cons o.id ih
    · simp only [settle_loop, hs, hr, List.map_cons]
      have hfid : f.order_id = o.id := (settle_order_fields cp sp ev o f hs).1
      rw [hfid]
      exact List.Perm.trans List.perm_middle (List.Perm.cons o.id ih)

theorem insert_order_ids_sub (pending : List OrderEvent) (o : OrderEvent) (x : ℕ)
    (hx : x ∈ (insert_order pending o).map OrderEvent.id) :
    x ∈ pending.map OrderEvent.id ∨ x = o.id := by
  unfold insert_order at hx
  split at hx
  · rcases List.mem_map.mp hx with ⟨p, hp, hpx⟩
    rcases List.mem_map.mp hp with ⟨q, hq, hqp⟩
    by_cases hid : q.id = o.id
    · right; rw [← hpx, ← hqp]; simp [hid]
    · left
      rw [← hpx, ← hqp]
      simp only [hid, if_neg, if_false]
      exact List.mem_map_of_mem OrderEvent.id hq
  · rcases List.mem_map.mp hx with ⟨p, hp, hpx⟩
    rcases List.mem_append.mp hp with hp1 | hp1
    · exact Or.inl (hpx ▸ List.mem_map_of_mem OrderEvent.id hp1)
    · right
      rw [List.mem_singleton.mp hp1] at hpx
      exact hpx.symm

theorem exec_run_ids_sub (cp sp : ℚ) (tr : List ExecInput) (s : ExecState) (x : ℕ)
    (hx : x ∈ (exec_run cp sp s tr).2.map FillEvent.order_id
          ∨ x ∈ (exec_run cp sp s tr).1.pending_orders.map OrderEvent.id) :
    x ∈ s.pending_orders.map OrderEvent.id ∨ x ∈ order_ids_of tr := by
  induction tr generalizing s with
  | nil =>
    simp only [exec_run, List.map_nil, List.not_mem_nil, false_or] at hx
    exact Or.inl hx
  | cons i rest ih =>
    cases i with
    | order o =>
      simp only [exec_run, exec_step, List.nil_append] at hx
      rcases ih _ hx with hmem | hmem
      · rcases insert_order_ids_sub s.pending_orders o x hmem with h1 | h1
        · exact Or.inl h1
        · exact Or.inr (by simp [order_ids_of, h1])
      · exact Or.inr (by simp [order_ids_of, hmem])
    | market ev =>
      by_cases hn : is_new_time_step s ev = true
      · rcases hr : settle_loop cp sp ev s.pending_orders with ⟨keep, fills⟩
        simp only [exec_run, exec_step, on_market_event_for_settlement, hn, if_true, hr,
          List.map_append, List.mem_append] at hx
        have hperm := settle_loop_ids_perm cp sp ev s.pending_orders
        rw [hr] at hperm
        rcases hx with (hx | hx) | hx
        · refine Or.inl (hperm.mem_iff.mp ?_)
          exact List.mem_append.mpr (Or.inr hx)
        · rcases ih _ (Or.inl hx) with hmem | hmem
          · exact Or.inl (hperm.mem_iff.mp (List.mem_append.mpr (Or.inl hmem)))
          · exact Or.inr (by simpa [order_ids_of] using hmem)
        · rcases ih _ (Or.inr hx) with hmem | hmem
          · exact Or.inl (hperm.mem_iff.mp (List.mem_append.mpr (Or.inl hmem)))
          · exact Or.inr (by simpa [order_ids_of] using hmem)
      · simp only [exec_run, exec_step, on_market_event_for_settlement, hn, if_false,
          Bool.false_eq_true, List.nil_append] at hx
        rcases ih _ hx with hmem | hmem
        · exact Or.inl hmem
        · exact Or.inr (by simpa [order_ids_of] using hmem)

end SimulatedExecutionHandler

namespace SimulatedExecutionHandler

theorem exec_run_fill_ids_nodup (cp sp : ℚ) (tr : List ExecInput) (s : ExecState)
    (h : (s.pending_orders.map OrderEvent.id ++ order_ids_of tr).Nodup) :
    ((exec_run cp sp s tr).2.map FillEvent.order_id
      ++ (exec_run cp sp s tr).1.pending_orders.map OrderEvent.id).Nodup := by
  induction tr generalizing s with
  | nil =>
    simp only [exec_run, List.map_nil, List.nil_append]
    simpa [order_ids_of] using h
  | cons i rest ih =>
    cases i with
    | order o =>
      have hresh : o.id ∉ s.pending_orders.map OrderEvent.id := by
        have hdisj := (List.nodup_append.mp h).2.2
        intro hmem
        exact hdisj hmem (by simp [order_ids_of])
      have hins := insert_order_fresh s.pending_orders o hresh
      simp only [exec_run, exec_step, hins, List.nil_append]
      apply ih
      simpa [order_ids_of, List.append_assoc] using h
    | market ev =>
      by_cases hn : is_new_time_step s ev = true
      · rcases hr : settle_loop cp sp ev s.pending_orders with ⟨keep, fills⟩
        have hperm := settle_loop_ids_perm cp sp ev s.pending_orders
        rw [hr] at hperm
        simp only at hperm
        have h' : (s.pending_orders.map OrderEvent.id ++ order_ids_of rest).Nodup := by
          simpa [order_ids_of] using h
        have hABC : (keep.map OrderEvent.id
            ++ (fills.map FillEvent.order_id ++ order_ids_of rest)).Nodup := by
          have h0 := (List.Perm.nodup_iff (hperm.append_right (order_ids_of rest))).mpr h'
          rwa [List.append_assoc] at h0
        have hswap : (keep.map OrderEvent.id
            ++ (fills.map FillEvent.order_id ++ order_ids_of rest)).Perm
            (fills.map FillEvent.order_id
              ++ (keep.map OrderEvent.id ++ order_ids_of rest)) := by
          have h0 := List.Perm.append_right (order_ids_of rest)
            (@List.perm_append_comm _ (keep.map OrderEvent.id) (fills.map FillEvent.order_id))
          rw [List.append_assoc, List.append_assoc] at h0
          exact h0
        have h2 := (List.Perm.nodup_iff hswap).mp hABC
        have hrest := ih { pending_orders := keep
                           last_market_timestamp := some ev.timestamp
                           last_market_prices := update_last_price_for_symbol s.last_market_prices ev }
          (by simpa using List.Nodup.of_append_right h2)
        simp only [exec_run, exec_step, on_market_event_for_settlement, hn, if_true, hr,
          List.map_append, List.append_assoc]
        rw [List.nodup_append]
        refine ⟨List.Nodup.of_append_left h2, by simpa using hrest, ?_⟩
        intro x hxf hxrest
        have hdisj := (List.nodup_append.mp h2).2.2
        have hsub := exec_run_ids_sub cp sp rest
          { pending_orders := keep
            last_market_timestamp := some ev.timestamp
            last_market_prices := update_last_price_for_symbol s.last_market_prices ev } x
          (by simpa [List.mem_append] using hxrest)
        rcases hsub with hsub | hsub
        · exact hdisj hxf (List.mem_append.mpr (Or.inl (by simpa using hsub)))
        · exact hdisj hxf (List.mem_append.mpr (Or.inr hsub))
      · simp only [exec_run, exec_step, on_market_event_for_settlement]
        rw [if_neg hn]
        simp only [List.nil_append]
        apply ih
        simpa [order_ids_of] using h

end SimulatedExecutionHandler

theorem update_state_pending (st : BasePortfolio.PortfolioState) (f : FillEvent) :
    (BasePortfolio.update_state_from_fill st f).pending_orders
      = (BasePortfolio.revert_pending st f).pending_orders := by
  unfold BasePortfolio.update_state_from_fill
  repeat' split
  all_goals rfl

theorem revert_pending_no_fill_id (st : BasePortfolio.PortfolioState) (f : FillEvent)
    (o : OrderEvent) (ho : o ∈ (BasePortfolio.revert_pending st f).pending_orders) :
    ¬ o.id = f.order_id := by
  unfold BasePortfolio.revert_pending at ho
  rcases hfind : st.pending_orders.find? (fun p => p.id = f.order_id) with _ | orig
  · rw [hfind] at ho
    simp only at ho
    intro hid
    have := List.find?_eq_none.mp hfind o ho
    simp [hid] at this
  · rw [hfind] at ho
    simp only at ho
    have hmem := List.of_mem_filter ho
    simpa using hmem

/-- Claim C4: for every order id, a whole execution-handler run over a
trace of distinct submitted order ids produces at most one fill
referencing that id: the settlement step removes the settled prefix of
pending orders and keeps exactly the unsettled ones, so an order leaves
pending_orders at its first fill and is never settled again. -/
theorem C4_at_most_one_fill (cp sp : ℚ) (tr : List SimulatedExecutionHandler.ExecInput)
    (h : (SimulatedExecutionHandler.order_ids_of tr).Nodup) :
    (∀ oid : ℕ,
      ((SimulatedExecutionHandler.exec_run cp sp SimulatedExecutionHandler.exec_init tr).2.map
        FillEvent.order_id).count oid ≤ 1)
    ∧ ∀ (st : BasePortfolio.PortfolioState) (f : FillEvent) (o : OrderEvent),
        o ∈ (BasePortfolio.update_state_from_fill st f).pending_orders →
        ¬ o.id = f.order_id := by
  constructor
  · have hnd := SimulatedExecutionHandler.exec_run_fill_ids_nodup cp sp tr
      SimulatedExecutionHandler.exec_init
      (by simpa [SimulatedExecutionHandler.exec_init] using h)
    exact List.nodup_iff_count_le_one.mp (List.Nodup.of_append_left hnd)
  · intro st f o ho
    rw [update_state_pending] at ho
    exact revert_pending_no_fill_id st f o ho

/-- Claim C4 (witness): on the concrete one-order, one-tick trace the
run produces exactly one fill for order id 1. -/
theorem C4_at_most_one_fill_witness :
    (SimulatedExecutionHandler.order_ids_of c4w_trace).Nodup
    ∧ ((SimulatedExecutionHandler.exec_run (1/1000) (5/10000)
        SimulatedExecutionHandler.exec_init c4w_trace).2.map FillEvent.order_id).count 1 ≤ 1 :=
  ⟨by decide, (C4_at_most_one_fill (1/1000) (5/10000) c4w_trace (by decide)).1 1⟩

theorem assocGet_assocSet_self {α : Type} (m : List (String × α)) (k : String) (v : α) :
    assocGet (assocSet m k v) k = some v := by
  induction m with
  | nil => simp [assocSet, assocGet]
  | cons p rest ih =>
    by_cases hp : p.1 = k
    · simp [assocSet, assocGet, hp]
    · by_cases hany : rest.any (fun q => q.1 = k)
      · have hany2 : ((p :: rest).any fun q => decide (q.1 = k)) = true := by
          simp [List.any_cons, hany]
        simp only [assocSet, hany2, if_true, List.map_cons, assocGet]
        rw [if_neg hp]
        simp only [List.find?_cons, decide_eq_false hp]
        have ihx := ih
        simp only [assocSet, hany, if_true, assocGet] at ihx
        exact ihx
      · have hany3 : (rest.any fun q => decide (q.1 = k)) = false :=
          Bool.eq_false_iff.mpr hany
        have hany2 : ((p :: rest).any fun q => decide (q.1 = k)) = false := by
          simp only [List.any_cons, Bool.or_eq_false_iff]
          exact ⟨decide_eq_false hp, hany3⟩
        simp only [assocSet, hany2, Bool.false_eq_true, if_false, List.cons_append, assocGet]
        simp only [List.find?_cons, decide_eq_false hp]
        have ihx := ih
        simp only [assocSet, hany3, Bool.false_eq_true, if_false, assocGet] at ihx
        exact ihx

theorem revert_pending_cash (st : BasePortfolio.PortfolioState) (f : FillEvent) :
    (BasePortfolio.revert_pending st f).cash = st.cash := by
  unfold BasePortfolio.revert_pending
  repeat' split
  all_goals rfl

theorem update_cash_buy (st : BasePortfolio.PortfolioState) (f : FillEvent)
    (hdir : f.direction = "BUY") :
    (BasePortfolio.update_state_from_fill st f).cash
      = st.cash - ((f.quantity : ℚ) * f.price + f.commission) := by
  unfold BasePortfolio.update_state_from_fill
  simp only [hdir, if_pos, if_true, reduceIte]
  rw [revert_pending_cash]

/-- Claim C3 (amended): the order-creation half of the claim holds — a
BUY accepted by _check_risk_before_order has a positive estimated cost
within cash minus reserved cash; and settlement of a BUY whose actual
fill cost is within cash leaves cash non-negative. The unconditional
claim "cash ≥ 0 after every settled BUY" is corrected: the estimate uses
the stale last price, so a fill at a gapped-up price can cost more than
cash and drive it negative (see the counterexample). -/
theorem C3_cash_amended :
    (∀ (st : BasePortfolio.PortfolioState) (o : OrderEvent),
       o.direction = "BUY" →
       BasePortfolio.check_risk_before_order st o = true →
       0 < BasePortfolio.estimate_order_cost st o
         ∧ BasePortfolio.estimate_order_cost st o ≤ st.cash - st.reserved_cash)
    ∧ (∀ (st : BasePortfolio.PortfolioState) (f : FillEvent),
       f.direction = "BUY" →
       (f.quantity : ℚ) * f.price + f.commission ≤ st.cash →
       0 ≤ (BasePortfolio.update_state_from_fill st f).cash) := by
  constructor
  · intro st o hdir hr
    unfold BasePortfolio.check_risk_before_order at hr
    rw [hdir] at hr
    simp only [reduceIte] at hr
    split_ifs at hr with h1 h2
    constructor
    · exact lt_of_not_le h1
    · exact le_of_not_lt h2
  · intro st f hdir hle
    rw [update_cash_buy st f hdir]
    linarith

theorem revert_pending_positions (st : BasePortfolio.PortfolioState) (f : FillEvent) :
    (BasePortfolio.revert_pending st f).positions = st.positions := by
  unfold BasePortfolio.revert_pending
  repeat' split
  all_goals rfl

theorem update_position_sell (st : BasePortfolio.PortfolioState) (f : FillEvent)
    (hdir : f.direction = "SELL") :
    BasePortfolio.get_position (BasePortfolio.update_state_from_fill st f) f.symbol
      = { quantity := (BasePortfolio.get_position st f.symbol).quantity - f.quantity
          cost_basis :=
            if (BasePortfolio.get_position st f.symbol).quantity - f.quantity ≤ 0 then 0
            else (BasePortfolio.get_position st f.symbol).cost_basis } := by
  have h1 : ¬("SELL" = "BUY") := by decide
  unfold BasePortfolio.update_state_from_fill
  rw [hdir]
  rw [if_neg h1, if_pos rfl, if_neg h1, if_pos rfl]
  unfold BasePortfolio.get_position
  rw [assocGet_assocSet_self]
  simp only [Option.getD_some, revert_pending_positions]

theorem settle_position_buy_reset (o : OrderEvent) (p : ℚ) (pos : Position)
    (hq : (MomentumBroker.settle_position_buy o p pos).quantity = 0) :
    (MomentumBroker.settle_position_buy o p pos).cost_basis = 0 := by
  unfold MomentumBroker.settle_position_buy at hq ⊢
  simp only at hq ⊢
  rw [if_pos hq]

theorem settle_position_sell_reset (o : OrderEvent) (p : ℚ) (pos : Position)
    (hq : (MomentumBroker.settle_position_sell o p pos).quantity = 0) :
    (MomentumBroker.settle_position_sell o p pos).cost_basis = 0 := by
  unfold MomentumBroker.settle_position_sell at hq ⊢
  simp only at hq ⊢
  rw [if_pos hq]

/-- Claim C6 (amended): the SELL half of the claim holds in both
portfolios — a SELL settlement that brings the quantity to zero (or
below) resets the cost basis to zero in the same step, and the trader_v2
broker resets the basis whenever a BUY or SELL settlement lands the
position exactly at zero. The BUY half is corrected for trader-v2: its
BUY branch sets cost_basis to the fill price whenever the prior quantity
is ≤ 0, so covering a short exactly to zero leaves a non-zero basis (see
the counterexample). -/
theorem C6_cost_basis_amended :
    (∀ (st : BasePortfolio.PortfolioState) (f : FillEvent),
       f.direction = "SELL" →
       (BasePortfolio.get_position (BasePortfolio.update_state_from_fill st f)
           f.symbol).quantity ≤ 0 →
       (BasePortfolio.get_position (BasePortfolio.update_state_from_fill st f)
           f.symbol).cost_basis = 0)
    ∧ (∀ (cp sp : ℚ) (st : BaseBroker.BrokerState) (o : OrderEvent)
         (st1 : BaseBroker.BrokerState),
       o.direction = "BUY" ∨ o.direction = "SELL" →
       MomentumBroker.settle_one cp sp st o = some st1 →
       ((assocGet st1.positions o.symbol).getD
           { quantity := 0, cost_basis := 0 }).quantity = 0 →
       ((assocGet st1.positions o.symbol).getD
           { quantity := 0, cost_basis := 0 }).cost_basis = 0) := by
  have hSB : ¬ ("SELL" = "BUY") := by decide
  constructor
  · intro st f hdir hq
    rw [update_position_sell st f hdir] at hq ⊢
    simp only at hq ⊢
    rw [if_pos hq]
  · intro cp sp st o st1 hdir hs hq
    unfold MomentumBroker.settle_one at hs
    rcases hpx : BaseBroker.get_latest_price st o.symbol with _ | px
    · rw [hpx] at hs; exact absurd hs (by simp)
    · rw [hpx] at hs
      simp only at hs
      split at hs
      · exact absurd hs (by simp)
      · split at hs
        · exact absurd hs (by simp)
        · rcases hdir with hdir | hdir
          · rw [hdir] at hs
            rw [if_pos rfl] at hs
            split at hs
            · exact absurd hs (by simp)
            · rw [Option.some.injEq] at hs
              subst hs
              simp only at hq ⊢
              rw [assocGet_assocSet_self] at hq ⊢
              simp only [Option.getD_some] at hq ⊢
              exact settle_position_buy_reset _ _ _ hq
          · rw [hdir] at hs
            rw [if_neg hSB, if_pos rfl] at hs
            rw [Option.some.injEq] at hs
            subst hs
            simp only at hq ⊢
            rw [assocGet_assocSet_self] at hq ⊢
            simp only [Option.getD_some] at hq ⊢
            exact settle_position_sell_reset _ _ _ hq

theorem place_order_snd (st : BasePortfolio.PortfolioState) (o : OrderEvent) :
    (MomentumPortfolio.place_order st o).2 = some o := by
  unfold MomentumPortfolio.place_order
  repeat' split
  all_goals rfl

theorem on_signal_shape (lot : ℤ) (nid : ℕ) (st : BasePortfolio.PortfolioState)
    (sig : SignalEvent) :
    MomentumPortfolio.on_signal lot nid st sig = (st, none)
    ∨ ∃ o, (MomentumPortfolio.on_signal lot nid st sig).2 = some o := by
  unfold MomentumPortfolio.on_signal MomentumPortfolio.generate_flat_order
  dsimp only
  repeat' split
  all_goals
    first
      | exact Or.inl rfl
      | exact Or.inr ⟨_, place_order_snd _ _⟩

/-- Claim C5 (amended): the risk checks hold with the projected
quantity in trader-v2 and the confirmed quantity in trader_v2: a SELL
accepted by the trader-v2 portfolio has quantity at most the PROJECTED
(confirmed plus pending) quantity — not the held quantity, as the
counterexample shows — while the trader_v2 broker rejects any SELL
exceeding the confirmed holding; and a signal that publishes no order
leaves the portfolio state unchanged. -/
theorem C5_sell_risk_amended :
    (∀ (st : BasePortfolio.PortfolioState) (o : OrderEvent),
       o.direction = "SELL" →
       BasePortfolio.check_risk_before_order st o = true →
       o.quantity ≤ BasePortfolio.get_projected_position_quantity st o.symbol)
    ∧ (∀ (st : BaseBroker.BrokerState) (o : OrderEvent),
       o.direction = "SELL" →
       BaseBroker.get_current_position_quantity st o.symbol < o.quantity →
       BaseBroker.check_risk_before_order st o = false)
    ∧ (∀ (lot : ℤ) (nid : ℕ) (st : BasePortfolio.PortfolioState) (sig : SignalEvent),
       (MomentumPortfolio.on_signal lot nid st sig).2 = none →
       (MomentumPortfolio.on_signal lot nid st sig).1 = st) := by
  have hSB : ¬ ("SELL" = "BUY") := by decide
  refine ⟨?_, ?_, ?_⟩
  · intro st o hdir hr
    unfold BasePortfolio.check_risk_before_order at hr
    rw [hdir, if_neg hSB, if_pos rfl] at hr
    dsimp only at hr
    split_ifs at hr with h1
    exact le_of_not_lt h1
  · intro st o hdir hlt
    unfold BaseBroker.check_risk_before_order
    rw [hdir, if_neg hSB, if_pos rfl]
    by_cases hq0 : o.quantity ≤ 0
    · rw [if_pos hq0]
    · rw [if_neg hq0]
      dsimp only
      rw [if_pos hlt]
  · intro lot nid st sig h
    rcases on_signal_shape lot nid st sig with hs | ⟨o, hs⟩
    · rw [hs]
    · rw [h] at hs
      cases hs
namespace EventEngine

theorem call_handlers_cons_ok (ev : EngineEvent) (h : Handler) (rest : List Handler)
    (acc : DispatchRecord) (u : Unit) (ho : h.outcome ev = Except.ok u) :
    call_handlers ev (h :: rest) acc
      = call_handlers ev rest { acc with invoked := acc.invoked ++ [h.name] } := by
  unfold call_handlers
  rw [List.foldl_cons, ho]

theorem call_handlers_cons_err (ev : EngineEvent) (h : Handler) (rest : List Handler)
    (acc : DispatchRecord) (msg : String) (ho : h.outcome ev = Except.error msg) :
    call_handlers ev (h :: rest) acc
      = call_handlers ev rest
          { invoked := acc.invoked ++ [h.name]
            error_log := acc.error_log ++ [(h.name, ev, msg)] } := by
  unfold call_handlers
  rw [List.foldl_cons, ho]

theorem call_handlers_invoked (ev : EngineEvent) (hs : List Handler) (acc : DispatchRecord) :
    (call_handlers ev hs acc).invoked = acc.invoked ++ hs.map Handler.name := by
  induction hs generalizing acc with
  | nil => simp [call_handlers]
  | cons h rest ih =>
    rcases ho : h.outcome ev with msg | u
    · rw [call_handlers_cons_err ev h rest acc msg ho, ih]
      simp
    · rw [call_handlers_cons_ok ev h rest acc u ho, ih]
      simp

theorem call_handlers_errlog_mono (ev : EngineEvent) (hs : List Handler)
    (acc : DispatchRecord) (x : String × EngineEvent × String) (hx : x ∈ acc.error_log) :
    x ∈ (call_handlers ev hs acc).error_log := by
  induction hs generalizing acc with
  | nil => simpa [call_handlers] using hx
  | cons h rest ih =>
    rcases ho : h.outcome ev with msg | u
    · rw [call_handlers_cons_err ev h rest acc msg ho]
      exact ih _ (by simp [hx])
    · rw [call_handlers_cons_ok ev h rest acc u ho]
      exact ih _ hx

theorem call_handlers_errlog_mem (ev : EngineEvent) (hs : List Handler)
    (acc : DispatchRecord) (h : Handler) (msg : String)
    (hh : h ∈ hs) (ho : h.outcome ev = Except.error msg) :
    (h.name, ev, msg) ∈ (call_handlers ev hs acc).error_log := by
  induction hs generalizing acc with
  | nil => simp at hh
  | cons h1 rest ih =>
    rcases List.mem_cons.mp hh with hh1 | hh1
    · subst hh1
      rw [call_handlers_cons_err ev h rest acc msg ho]
      exact call_handlers_errlog_mono ev rest _ _ (by simp)
    · rcases ho1 : h1.outcome ev with msg1 | u1
      · rw [call_handlers_cons_err ev h1 rest acc msg1 ho1]
        exact ih _ hh1
      · rw [call_handlers_cons_ok ev h1 rest acc u1 ho1]
        exact ih _ hh1

theorem process_event_invoked (f : String → List Handler) (g : List Handler)
    (acc : DispatchRecord) (ev : EngineEvent) :
    (process_event f g acc ev).invoked
      = acc.invoked ++ ((f ev.event_type).map Handler.name ++ g.map Handler.name) := by
  unfold process_event
  rw [call_handlers_invoked, call_handlers_invoked, List.append_assoc]

theorem process_event_errlog_mono (f : String → List Handler) (g : List Handler)
    (acc : DispatchRecord) (ev : EngineEvent) (x : String × EngineEvent × String)
    (hx : x ∈ acc.error_log) : x ∈ (process_event f g acc ev).error_log :=
  call_handlers_errlog_mono ev g _ x (call_handlers_errlog_mono ev _ acc x hx)

theorem process_event_errlog_mem (f : String → List Handler) (g : List Handler)
    (acc : DispatchRecord) (ev : EngineEvent) (h : Handler) (msg : String)
    (hh : h ∈ f ev.event_type ++ g) (ho : h.outcome ev = Except.error msg) :
    (h.name, ev, msg) ∈ (process_event f g acc ev).error_log := by
  unfold process_event
  rcases List.mem_append.mp hh with h1 | h1
  · exact call_handlers_errlog_mono ev g _ _ (call_handlers_errlog_mem ev _ acc h msg h1 ho)
  · exact call_handlers_errlog_mem ev g _ h msg h1 ho

theorem engine_foldl_invoked (f : String → List Handler) (g : List Handler)
    (events : List EngineEvent) (acc : DispatchRecord) :
    (events.foldl (process_event f g) acc).invoked
      = acc.invoked
        ++ events.flatMap (fun ev => (f ev.event_type).map Handler.name ++ g.map Handler.name) := by
  induction events generalizing acc with
  | nil => simp
  | cons ev rest ih =>
    rw [List.foldl_cons, ih, process_event_invoked]
    simp

theorem engine_foldl_errlog_mono (f : String → List Handler) (g : List Handler)
    (events : List EngineEvent) (acc : DispatchRecord) (x : String × EngineEvent × String)
    (hx : x ∈ acc.error_log) : x ∈ (events.foldl (process_event f g) acc).error_log := by
  induction events generalizing acc with
  | nil => simpa using hx
  | cons ev rest ih =>
    rw [List.foldl_cons]
    exact ih _ (process_event_errlog_mono f g acc ev x hx)

theorem engine_foldl_errlog_mem (f : String → List Handler) (g : List Handler)
    (events : List EngineEvent) (ev : EngineEvent) (h : Handler) (msg : String)
    (hev : ev ∈ events) (hh : h ∈ f ev.event_type ++ g)
    (ho : h.outcome ev = Except.error msg) (acc : DispatchRecord) :
    (h.name, ev, msg) ∈ (events.foldl (process_event f g) acc).error_log := by
  induction events generalizing acc with
  | nil => simp at hev
  | cons e rest ih =>
    rw [List.foldl_cons]
    rcases List.mem_cons.mp hev with he | he
    · subst he
      exact engine_foldl_errlog_mono f g rest _ _ (process_event_errlog_mem f g acc ev h msg hh ho)
    · exact ih he _

end EventEngine

namespace EventBusV2

theorem create_tasks_cons_ok (ev : EventEngine.EngineEvent) (h : EventEngine.Handler)
    (rest : List EventEngine.Handler) (s : DispatchState) (u : Unit)
    (ho : h.outcome ev = Except.ok u) :
    create_tasks ev (h :: rest) s
      = create_tasks ev rest { s with tasks_created := s.tasks_created ++ [h.name] } := by
  unfold create_tasks
  rw [List.foldl_cons, ho]

theorem create_tasks_cons_err (ev : EventEngine.EngineEvent) (h : EventEngine.Handler)
    (rest : List EventEngine.Handler) (s : DispatchState) (msg : String)
    (ho : h.outcome ev = Except.error msg) :
    create_tasks ev (h :: rest) s
      = create_tasks ev rest
          { s with
            tasks_created := s.tasks_created ++ [h.name]
            task_failures := s.task_failures ++ [(h.name, ev, msg)] } := by
  unfold create_tasks
  rw [List.foldl_cons, ho]

theorem create_tasks_created (ev : EventEngine.EngineEvent)
    (hs : List EventEngine.Handler) (s : DispatchState) :
    (create_tasks ev hs s).tasks_created
      = s.tasks_created ++ hs.map EventEngine.Handler.name := by
  induction hs generalizing s with
  | nil => simp [create_tasks]
  | cons h rest ih =>
    rcases ho : h.outcome ev with msg | u
    · rw [create_tasks_cons_err ev h rest s msg ho, ih]
      simp
    · rw [create_tasks_cons_ok ev h rest s u ho, ih]
      simp

theorem create_tasks_run_log (ev : EventEngine.EngineEvent)
    (hs : List EventEngine.Handler) (s : DispatchState) :
    (create_tasks ev hs s).run_log = s.run_log := by
  induction hs generalizing s with
  | nil => simp [create_tasks]
  | cons h rest ih =>
    rcases ho : h.outcome ev with msg | u
    · rw [create_tasks_cons_err ev h rest s msg ho, ih]
    · rw [create_tasks_cons_ok ev h rest s u ho, ih]

theorem create_tasks_queue_done (ev : EventEngine.EngineEvent)
    (hs : List EventEngine.Handler) (s : DispatchState) :
    (create_tasks ev hs s).queue_done = s.queue_done := by
  induction hs generalizing s with
  | nil => simp [create_tasks]
  | cons h rest ih =>
    rcases ho : h.outcome ev with msg | u
    · rw [create_tasks_cons_err ev h rest s msg ho, ih]
    · rw [create_tasks_cons_ok ev h rest s u ho, ih]

theorem create_tasks_failures_mono (ev : EventEngine.EngineEvent)
    (hs : List EventEngine.Handler) (s : DispatchState)
    (x : String × EventEngine.EngineEvent × String) (hx : x ∈ s.task_failures) :
    x ∈ (create_tasks ev hs s).task_failures := by
  induction hs generalizing s with
  | nil => simpa [create_tasks] using hx
  | cons h rest ih =>
    rcases ho : h.outcome ev with msg | u
    · rw [create_tasks_cons_err ev h rest s msg ho]
      exact ih _ (by simp [hx])
    · rw [create_tasks_cons_ok ev h rest s u ho]
      exact ih _ hx

theorem create_tasks_failures_mem (ev : EventEngine.EngineEvent)
    (hs : List EventEngine.Handler) (s : DispatchState)
    (h : EventEngine.Handler) (msg : String)
    (hh : h ∈ hs) (ho : h.outcome ev = Except.error msg) :
    (h.name, ev, msg) ∈ (create_tasks ev hs s).task_failures := by
  induction hs generalizing s with
  | nil => simp at hh
  | cons h1 rest ih =>
    rcases List.mem_cons.mp hh with hh1 | hh1
    · subst hh1
      rw [create_tasks_cons_err ev h rest s msg ho]
      exact create_tasks_failures_mono ev rest _ _ (by simp)
    · rcases ho1 : h1.outcome ev with msg1 | u1
      · rw [create_tasks_cons_err ev h1 rest s msg1 ho1]
        exact ih _ hh1
      · rw [create_tasks_cons_ok ev h1 rest s u1 ho1]
        exact ih _ hh1

theorem run_step_ok (listeners_of : String → List EventEngine.Handler)
    (s : DispatchState) (ev : EventEngine.EngineEvent) :
    run_step listeners_of s ev
      = { create_tasks ev (listeners_of ev.event_type) s with
          queue_done := (create_tasks ev (listeners_of ev.event_type) s).queue_done + 1 } := by
  unfold run_step run_body
  dsimp only

theorem run_foldl_queue_done (listeners_of : String → List EventEngine.Handler)
    (events : List EventEngine.EngineEvent) (acc : DispatchState) :
    (events.foldl (run_step listeners_of) acc).queue_done
      = acc.queue_done + events.length := by
  induction events generalizing acc with
  | nil => simp
  | cons e rest ih =>
    rw [List.foldl_cons, ih, run_step_ok]
    dsimp only
    rw [create_tasks_queue_done, List.length_cons]
    omega

theorem run_foldl_run_log (listeners_of : String → List EventEngine.Handler)
    (events : List EventEngine.EngineEvent) (acc : DispatchState) :
    (events.foldl (run_step listeners_of) acc).run_log = acc.run_log := by
  induction events generalizing acc with
  | nil => rfl
  | cons e rest ih =>
    rw [List.foldl_cons, ih, run_step_ok]
    dsimp only
    rw [create_tasks_run_log]

theorem run_foldl_tasks (listeners_of : String → List EventEngine.Handler)
    (events : List EventEngine.EngineEvent) (acc : DispatchState) :
    (events.foldl (run_step listeners_of) acc).tasks_created
      = acc.tasks_created
        ++ events.flatMap (fun ev =>
             (listeners_of ev.event_type).map EventEngine.Handler.name) := by
  induction events generalizing acc with
  | nil => simp
  | cons e rest ih =>
    rw [List.foldl_cons, ih, run_step_ok]
    dsimp only
    rw [create_tasks_created]
    simp

theorem run_foldl_failures_mono (listeners_of : String → List EventEngine.Handler)
    (events : List EventEngine.EngineEvent) (acc : DispatchState)
    (x : String × EventEngine.EngineEvent × String) (hx : x ∈ acc.task_failures) :
    x ∈ (events.foldl (run_step listeners_of) acc).task_failures := by
  induction events generalizing acc with
  | nil => simpa using hx
  | cons e rest ih =>
    rw [List.foldl_cons]
    apply ih
    rw [run_step_ok]
    dsimp only
    exact create_tasks_failures_mono e _ acc x hx

theorem run_foldl_failures_mem (listeners_of : String → List EventEngine.Handler)
    (events : List EventEngine.EngineEvent) (ev : EventEngine.EngineEvent)
    (h : EventEngine.Handler) (msg : String)
    (hev : ev ∈ events) (hh : h ∈ listeners_of ev.event_type)
    (ho : h.outcome ev = Except.error msg) (acc : DispatchState) :
    (h.name, ev, msg) ∈ (events.foldl (run_step listeners_of) acc).task_failures := by
  induction events generalizing acc with
  | nil => simp at hev
  | cons e rest ih =>
    rw [List.foldl_cons]
    rcases List.mem_cons.mp hev with he | he
    · subst he
      apply run_foldl_failures_mono
      rw [run_step_ok]
      dsimp only
      exact create_tasks_failures_mem ev _ acc h msg hh ho
    · exact ih he _

end EventBusV2

/-- Claim C7, counterexample: in the exact task semantics of trader-v2's
EventBus.run, a raising handler's exception is NOT caught at the dispatch
boundary and NOT logged with the offending event. Dispatching one MARKET
event to a raising and a succeeding handler: both tasks are created and
the loop completes the event (isolation holds), the raising handler's
exception is captured inside its fire-and-forget task, and the log
written by run's except branch — the only dispatch-boundary logging —
stays empty; the stored exception is then discarded by the shutdown
gather(..., return_exceptions=True). The claim states the exception is
caught at the dispatch boundary and logged with the offending event. -/
theorem C7_v2_exception_swallowed :
    (EventBusV2.run_loop c7_handlers_of [c7_event]).tasks_created = ["bad", "good"]
    ∧ (EventBusV2.run_loop c7_handlers_of [c7_event]).queue_done = 1
    ∧ (EventBusV2.run_loop c7_handlers_of [c7_event]).task_failures
        = [("bad", c7_event, "boom")]
    ∧ (EventBusV2.run_loop c7_handlers_of [c7_event]).run_log = [] := by
  refine ⟨rfl, rfl, rfl, rfl⟩

/-- Claim C7 (amended): fault isolation holds in both cited dispatch
loops, but the catch-and-log half only in trader/event_engine.py. For the
EventEngine there, every registered handler (for the event's type, then
the general ones) is invoked for every dequeued event regardless of other
handlers' failures, and a raising handler's exception is caught by the
per-handler try/except and logged with the handler, the offending event
and the message. For trader-v2's EventBus, the run loop also completes
every event (task_done once per event) and creates every handler task,
and is never terminated by a handler fault — but a handler exception is
only captured inside its fire-and-forget task: the dispatch-boundary log
of run's except branch stays empty, so the exception is never logged with
the offending event. -/
theorem C7_fault_isolation_amended (f : String → List EventEngine.Handler)
    (g : List EventEngine.Handler) (listeners : String → List EventEngine.Handler)
    (events : List EventEngine.EngineEvent) :
    ((EventEngine.engine_run f g events).invoked
        = events.flatMap (fun ev =>
            (f ev.event_type).map EventEngine.Handler.name
              ++ g.map EventEngine.Handler.name)
      ∧ ∀ ev ∈ events, ∀ h ∈ f ev.event_type ++ g, ∀ msg : String,
          h.outcome ev = Except.error msg →
          (h.name, ev, msg) ∈ (EventEngine.engine_run f g events).error_log)
    ∧ ((EventBusV2.run_loop listeners events).queue_done = events.length
      ∧ (EventBusV2.run_loop listeners events).tasks_created
          = events.flatMap (fun ev =>
              (listeners ev.event_type).map EventEngine.Handler.name)
      ∧ (EventBusV2.run_loop listeners events).run_log = []
      ∧ ∀ ev ∈ events, ∀ h ∈ listeners ev.event_type, ∀ msg : String,
          h.outcome ev = Except.error msg →
          (h.name, ev, msg) ∈ (EventBusV2.run_loop listeners events).task_failures) := by
  refine ⟨⟨?_, ?_⟩, ?_, ?_, ?_, ?_⟩
  · unfold EventEngine.engine_run
    rw [EventEngine.engine_foldl_invoked]
    rfl
  · intro ev hev h hh msg ho
    exact EventEngine.engine_foldl_errlog_mem f g events ev h msg hev hh ho _
  · unfold EventBusV2.run_loop
    rw [EventBusV2.run_foldl_queue_done]
    simp
  · unfold EventBusV2.run_loop
    rw [EventBusV2.run_foldl_tasks]
    rfl
  · unfold EventBusV2.run_loop
    rw [EventBusV2.run_foldl_run_log]
  · intro ev hev h hh msg ho
    exact EventBusV2.run_foldl_failures_mem listeners events ev h msg hev hh ho _

/-- Claim C7 (witness): with a raising handler and a succeeding handler
both subscribed to MARKET (and the succeeding one also general in the
engine), one MARKET event through the trader EventEngine invokes all
three registrations and logs the failure with the event, while the same
event through the trader-v2 bus completes with both tasks created, the
failure stored only in the task and nothing at the dispatch boundary. -/
theorem C7_fault_isolation_witness :
    (EventEngine.engine_run c7_handlers_of [c7_good] [c7_event]).invoked
        = ["bad", "good", "good"]
    ∧ ("bad", c7_event, "boom")
        ∈ (EventEngine.engine_run c7_handlers_of [c7_good] [c7_event]).error_log
    ∧ (EventBusV2.run_loop c7_handlers_of [c7_event]).queue_done = 1
    ∧ (EventBusV2.run_loop c7_handlers_of [c7_event]).run_log = []
    ∧ ("bad", c7_event, "boom")
        ∈ (EventBusV2.run_loop c7_handlers_of [c7_event]).task_failures := by
  obtain ⟨⟨h1, h2⟩, h3, h4, h5, h6⟩ :=
    C7_fault_isolation_amended c7_handlers_of [c7_good] c7_handlers_of [c7_event]
  refine ⟨?_, ?_, ?_, h5, ?_⟩
  · rw [h1]
    rfl
  · exact h2 c7_event (List.mem_singleton.mpr rfl) c7_bad (List.mem_cons_self _ _) "boom" rfl
  · rw [h3]
    rfl
  · exact h6 c7_event (List.mem_singleton.mpr rfl) c7_bad (List.mem_cons_self _ _) "boom" rfl

namespace MomentumBroker

open BaseBroker

theorem compute_order_reduce (lot_size : ℤ) (new_id : ℕ) (st : BrokerState)
    (sig : SignalEvent) (w p Δ : ℚ)
    (hdir : sig.direction = "LONG" ∨ sig.direction = "SHORT")
    (hw : sig.weight = some w) (hw0 : 0 ≤ w)
    (hp : get_latest_price st sig.symbol = some p)
    (hp0 : 1 / 1000000000 < p)
    (htv : 1 / 1000000 < get_total_portfolio_value st)
    (hΔ : Δ = spec_delta (get_total_portfolio_value st) w p sig.direction
            (get_current_position_quantity st sig.symbol)) :
    compute_order lot_size new_id st sig
      = (if (lot_size : ℚ) * (99 / 100) < Δ then
           (if ⌊Δ / (lot_size : ℚ)⌋ * lot_size ≤ 0 then none else
              some { id := new_id, symbol := sig.symbol, direction := "BUY"
                     quantity := ⌊Δ / (lot_size : ℚ)⌋ * lot_size
                     order_type := "MARKET", price := none })
         else if Δ < -((lot_size : ℚ) * (99 / 100)) then
           (if ⌊|Δ| / (lot_size : ℚ)⌋ * lot_size ≤ 0 then none else
              some { id := new_id, symbol := sig.symbol, direction := "SELL"
                     quantity := ⌊|Δ| / (lot_size : ℚ)⌋ * lot_size
                     order_type := "MARKET", price := none })
         else none) := by
  have hp00 : (0:ℚ) < p := lt_trans (by norm_num) hp0
  have hqdf : (if sig.direction = "LONG"
        then max 0 (get_total_portfolio_value st * w) / p
        else -(max 0 (get_total_portfolio_value st * w) / p))
      - (get_current_position_quantity st sig.symbol : ℚ) = Δ := by
    rw [hΔ]
    unfold spec_delta spec_target_quantity
    rcases hdir with hL | hS
    · rw [hL]; simp
    · rw [hS]; simp
  unfold compute_order
  rw [if_neg (not_not_intro hdir), hw, hp]
  dsimp only
  rw [if_neg (not_lt.mpr hw0), if_neg (not_le.mpr hp00), if_neg (not_le.mpr htv), if_pos hp0]
  rw [hqdf]
  by_cases h1 : (lot_size : ℚ) * (99 / 100) < Δ
  · rw [if_pos h1, if_pos h1]
  · rw [if_neg h1, if_neg h1]
    by_cases h2 : Δ < -((lot_size : ℚ) * (99 / 100))
    · rw [if_pos h2, if_pos h2]
    · rw [if_neg h2, if_neg h2]

end MomentumBroker

/-- Claim C8 (amended): the sizing formula of the spec holds of the
trader_v2 MomentumBroker.on_signal (not of the trader-v2
MomentumPortfolio, which omits the SHORT negation): for a LONG/SHORT
signal with a valid weight, a positive latest price and a positive
portfolio value, let delta be the spec's target quantity (negated for
SHORT) minus the current confirmed quantity; when |delta| is below one
lot no order is computed, and otherwise the computed order's direction is
BUY for positive delta and SELL for negative delta, its quantity is
|delta| rounded down to a lot multiple, positive and divisible by the
lot. -/
theorem C8_sizing_amended (lot_size : ℤ) (new_id : ℕ) (st : BaseBroker.BrokerState)
    (sig : SignalEvent) (w p Δ : ℚ)
    (hlot : 1 ≤ lot_size)
    (hdir : sig.direction = "LONG" ∨ sig.direction = "SHORT")
    (hw : sig.weight = some w) (hw0 : 0 ≤ w)
    (hp : BaseBroker.get_latest_price st sig.symbol = some p)
    (hp0 : 1 / 1000000000 < p)
    (htv : 1 / 1000000 < BaseBroker.get_total_portfolio_value st)
    (hΔ : Δ = spec_delta (BaseBroker.get_total_portfolio_value st) w p sig.direction
            (BaseBroker.get_current_position_quantity st sig.symbol)) :
    (|Δ| < (lot_size : ℚ) → MomentumBroker.compute_order lot_size new_id st sig = none)
    ∧ ((lot_size : ℚ) ≤ |Δ| →
        MomentumBroker.compute_order lot_size new_id st sig
          = some { id := new_id, symbol := sig.symbol
                   direction := if 0 < Δ then "BUY" else "SELL"
                   quantity := ⌊|Δ| / (lot_size : ℚ)⌋ * lot_size
                   order_type := "MARKET", price := none }
        ∧ 0 < ⌊|Δ| / (lot_size : ℚ)⌋ * lot_size
        ∧ lot_size ∣ ⌊|Δ| / (lot_size : ℚ)⌋ * lot_size) := by
  have hlot0 : (0:ℤ) < lot_size := lt_of_lt_of_le Int.one_pos hlot
  have hlotQ : (0:ℚ) < (lot_size : ℚ) := by exact_mod_cast hlot0
  have h99nn : (0:ℚ) ≤ (lot_size : ℚ) * (99 / 100) := by nlinarith
  have h99 : (lot_size : ℚ) * (99 / 100) < (lot_size : ℚ) := by nlinarith
  rw [MomentumBroker.compute_order_reduce lot_size new_id st sig w p Δ hdir hw hw0 hp hp0 htv hΔ]
  constructor
  · intro hsmall
    rcases le_or_lt |Δ| ((lot_size : ℚ) * (99 / 100)) with hle | hgt
    · have hab := abs_le.mp hle
      rw [if_neg (not_lt.mpr hab.2), if_neg (not_lt.mpr hab.1)]
    · have hfl0 : ⌊|Δ| / (lot_size : ℚ)⌋ = 0 := by
        rw [Int.floor_eq_zero_iff]
        constructor
        · exact div_nonneg (abs_nonneg Δ) hlotQ.le
        · exact (div_lt_one hlotQ).mpr hsmall
      rcases lt_trichotomy Δ 0 with hneg | hzero | hpos
      · have habs : |Δ| = -Δ := abs_of_neg hneg
        have h1 : ¬((lot_size : ℚ) * (99 / 100) < Δ) := not_lt.mpr (le_trans hneg.le h99nn)
        have h2 : Δ < -((lot_size : ℚ) * (99 / 100)) := by rw [habs] at hgt; linarith
        rw [if_neg h1, if_pos h2, if_pos (by rw [hfl0]; simp)]
      · exfalso
        rw [hzero] at hgt
        simp at hgt
        linarith
      · have habs : |Δ| = Δ := abs_of_pos hpos
        have h1 : (lot_size : ℚ) * (99 / 100) < Δ := by rw [habs] at hgt; exact hgt
        rw [if_pos h1, if_pos (by rw [← habs, hfl0]; simp)]
  · intro hbig
    have hfl1 : 1 ≤ ⌊|Δ| / (lot_size : ℚ)⌋ := by
      rw [Int.le_floor]
      push_cast
      exact (one_le_div hlotQ).mpr hbig
    have hq0 : 0 < ⌊|Δ| / (lot_size : ℚ)⌋ * lot_size :=
      mul_pos (lt_of_lt_of_le Int.one_pos hfl1) hlot0
    have hΔ0 : Δ ≠ 0 := by
      intro h0
      rw [h0] at hbig
      simp at hbig
      linarith
    rcases hΔ0.lt_or_lt with hneg | hpos
    · have habs : |Δ| = -Δ := abs_of_neg hneg
      have h1 : ¬((lot_size : ℚ) * (99 / 100) < Δ) := not_lt.mpr (le_trans hneg.le h99nn)
      have h2 : Δ < -((lot_size : ℚ) * (99 / 100)) := by rw [habs] at hbig; linarith
      rw [if_neg h1, if_pos h2, if_neg (not_le.mpr hq0)]
      refine ⟨?_, hq0, dvd_mul_left lot_size _⟩
      rw [if_neg (not_lt.mpr hneg.le)]
    · have habs : |Δ| = Δ := abs_of_pos hpos
      have h1 : (lot_size : ℚ) * (99 / 100) < Δ := by rw [habs] at hbig; linarith
      have hfleq : ⌊Δ / (lot_size : ℚ)⌋ = ⌊|Δ| / (lot_size : ℚ)⌋ := by rw [habs]
      rw [if_pos h1, hfleq, if_neg (not_le.mpr hq0)]
      refine ⟨?_, hq0, dvd_mul_left lot_size _⟩
      rw [if_pos hpos]

/-- Claim C8 (witness): on a flat 10000-cash broker with AAPL at 10, a
LONG signal with weight 0.5 yields delta 500 and the broker computes a
BUY of 500 = 5 lots of 100. -/
theorem C8_sizing_amended_witness :
    MomentumBroker.compute_order 100 11 c8_broker_state c8_long_signal
      = some { id := 11, symbol := "AAPL", direction := "BUY", quantity := 500
               order_type := "MARKET", price := none }
    ∧ (0:ℤ) < 500 ∧ (100:ℤ) ∣ 500 := by
  have h := (C8_sizing_amended 100 11 c8_broker_state c8_long_signal (1/2) 10 500
    (by norm_num)
    (Or.inl rfl)
    rfl
    (by norm_num)
    rfl
    (by norm_num)
    (by norm_num [BaseBroker.get_total_portfolio_value, c8_broker_state])
    (by norm_num +decide [spec_delta, spec_target_quantity,
           BaseBroker.get_total_portfolio_value, BaseBroker.get_current_position_quantity,
           c8_broker_state, c8_long_signal, assocGet])).2 (by norm_num)
  refine ⟨?_, by norm_num, by norm_num⟩
  rw [h.1]
  norm_num [c8_long_signal]

/-- Claim C3 (witness): the accepted BUY estimate on the 100-cash state
is positive and within available cash, and an affordable 1-share BUY fill
leaves the cash non-negative. -/
theorem C3_cash_amended_witness :
    BasePortfolio.check_risk_before_order c3_state c3_order = true
    ∧ 0 < BasePortfolio.estimate_order_cost c3_state c3_order
    ∧ BasePortfolio.estimate_order_cost c3_state c3_order
        ≤ c3_state.cash - c3_state.reserved_cash
    ∧ (c3w_fill.quantity : ℚ) * c3w_fill.price + c3w_fill.commission ≤ c3_state.cash
    ∧ 0 ≤ (BasePortfolio.update_state_from_fill c3_state c3w_fill).cash := by
  have hr : BasePortfolio.check_risk_before_order c3_state c3_order = true := by
    norm_num [BasePortfolio.check_risk_before_order, BasePortfolio.estimate_order_cost,
      BasePortfolio.get_latest_price, BasePortfolio.calculate_commission,
      c3_state, c3_order, assocGet, DEFAULT_COMMISSION_RATE, DEFAULT_SLIPPAGE_PERCENT,
      abs_of_pos]
  have hle : (c3w_fill.quantity : ℚ) * c3w_fill.price + c3w_fill.commission
      ≤ c3_state.cash := by
    norm_num [c3w_fill, c3_state]
  exact ⟨hr, (C3_cash_amended.1 c3_state c3_order rfl hr).1,
    (C3_cash_amended.1 c3_state c3_order rfl hr).2, hle,
    C3_cash_amended.2 c3_state c3w_fill rfl hle⟩

/-- Claim C5 (witness): a SELL of 50 against 100 confirmed shares passes
the risk check and is within the projected quantity; the broker blocks a
SELL of 10 against a flat book; and a signal that yields no published
order leaves the portfolio state unchanged. -/
theorem C5_sell_risk_amended_witness :
    BasePortfolio.check_risk_before_order c5w_state c5w_sell = true
    ∧ c5w_sell.quantity ≤ BasePortfolio.get_projected_position_quantity c5w_state c5w_sell.symbol
    ∧ BaseBroker.get_current_position_quantity c8_broker_state c5w_broker_sell.symbol
        < c5w_broker_sell.quantity
    ∧ BaseBroker.check_risk_before_order c8_broker_state c5w_broker_sell = false
    ∧ (MomentumPortfolio.on_signal 100 1 c5w_state c5w_skip_signal).2 = none
    ∧ (MomentumPortfolio.on_signal 100 1 c5w_state c5w_skip_signal).1 = c5w_state := by
  have hr : BasePortfolio.check_risk_before_order c5w_state c5w_sell = true := by
    norm_num +decide [BasePortfolio.check_risk_before_order,
      BasePortfolio.get_projected_position_quantity,
      BasePortfolio.get_current_position_quantity, BasePortfolio.get_position,
      c5w_state, c5w_sell, assocGet]
  have hlt : BaseBroker.get_current_position_quantity c8_broker_state c5w_broker_sell.symbol
      < c5w_broker_sell.quantity := by
    norm_num [BaseBroker.get_current_position_quantity, c8_broker_state,
      c5w_broker_sell, assocGet]
  have hnone : (MomentumPortfolio.on_signal 100 1 c5w_state c5w_skip_signal).2 = none := by
    norm_num +decide [MomentumPortfolio.on_signal, c5w_state, c5w_skip_signal]
  exact ⟨hr, C5_sell_risk_amended.1 c5w_state c5w_sell rfl hr, hlt,
    C5_sell_risk_amended.2.1 c8_broker_state c5w_broker_sell rfl hlt, hnone,
    C5_sell_risk_amended.2.2 100 1 c5w_state c5w_skip_signal hnone⟩

/-- Claim C6 (witness): the SELL fill closing the 5-share position to
zero resets its cost basis, and the broker settling a SELL that closes a
10-share position to zero also resets the basis. -/
theorem C6_cost_basis_amended_witness :
    (BasePortfolio.get_position
        (BasePortfolio.update_state_from_fill c6w_state c6w_sell_fill) "AAPL").quantity ≤ 0
    ∧ (BasePortfolio.get_position
        (BasePortfolio.update_state_from_fill c6w_state c6w_sell_fill) "AAPL").cost_basis = 0
    ∧ MomentumBroker.settle_one 0 0 c6w_broker_state c6w_broker_sell = some c6w_settled
    ∧ ((assocGet c6w_settled.positions "AAPL").getD
        { quantity := 0, cost_basis := 0 }).quantity = 0
    ∧ ((assocGet c6w_settled.positions "AAPL").getD
        { quantity := 0, cost_basis := 0 }).cost_basis = 0 := by
  have hq : (BasePortfolio.get_position
      (BasePortfolio.update_state_from_fill c6w_state c6w_sell_fill) "AAPL").quantity ≤ 0 := by
    norm_num +decide [BasePortfolio.update_state_from_fill, BasePortfolio.revert_pending,
      BasePortfolio.get_position, BasePortfolio.estimate_order_cost,
      BasePortfolio.get_latest_price, BasePortfolio.calculate_commission,
      c6w_state, c6w_sell_fill, assocGet, assocSet,
      DEFAULT_COMMISSION_RATE, DEFAULT_SLIPPAGE_PERCENT]
  have hs : MomentumBroker.settle_one 0 0 c6w_broker_state c6w_broker_sell
      = some c6w_settled := by
    norm_num +decide [MomentumBroker.settle_one, MomentumBroker.settle_fill_price,
      MomentumBroker.settle_position_sell, BaseBroker.get_latest_price,
      c6w_broker_state, c6w_broker_sell, c6w_settled, assocGet, assocSet]
  have hq2 : ((assocGet c6w_settled.positions "AAPL").getD
      { quantity := 0, cost_basis := 0 }).quantity = 0 := by
    norm_num [assocGet, c6w_settled]
  exact ⟨hq, C6_cost_basis_amended.1 c6w_state c6w_sell_fill rfl hq, hs, hq2,
    C6_cost_basis_amended.2 0 0 c6w_broker_state c6w_broker_sell c6w_settled
      (Or.inr rfl) hs hq2⟩

